import Mathlib

/-!
Verification of the MERCURANA adaptive symplectic integrator
(`src/integrator_mercurana.c` of the rebound repository).

The C code works on IEEE doubles; we embed the numerics over `ℝ`.  The only
places where IEEE semantics differ observably from real arithmetic are
divisions whose denominator can be zero (the closest-approach time in
`reb_mercurana_predict_rmin2`, and `exp(-1/x)` / `exp(-1/x)/x²` at `x = 0` in
the switching function).  Those divisions are modelled explicitly by the type
`FVal` below, which carries the IEEE special values `+inf`, `-inf` and `NaN`
produced by dividing by (positive) zero, so that the embedded functions take
the same branches as the compiled code.  Rounding error is not modelled.

External collaborators that are not part of this file's source
(`reb_collision_search`, the EOS operator-splitting driver, gravity) are taken
as opaque parameters of the functions that call them.
-/

noncomputable section

namespace Mercurana

open scoped Classical

/-- IEEE-style value: a finite real or one of the special values produced by
dividing by zero.  Only the operations the embedded code performs on possibly
special values are defined. -/
inductive FVal where
  | fin : ℝ → FVal
  | pinf : FVal
  | ninf : FVal
  | nan : FVal

namespace FVal

/-- IEEE division of two finite doubles.  All zero denominators arising in the
embedded code are positive zeros (absolute values, squares, sums of
exponentials), so the sign of the zero denominator is taken positive. -/
def fdiv (a b : ℝ) : FVal :=
  if b = 0 then (if a = 0 then nan else if a < 0 then ninf else pinf)
  else fin (a / b)

/-- Division of a possibly special value by a finite, nonnegative double
(used for `t_closest/dt` where `dt = fabs(dt)`). -/
def divR (v : FVal) (b : ℝ) : FVal :=
  match v with
  | fin a => fdiv a b
  | pinf => pinf
  | ninf => ninf
  | nan => nan

/-- IEEE division of two possibly special values. -/
def div (v w : FVal) : FVal :=
  match v, w with
  | nan, _ => nan
  | _, nan => nan
  | fin a, fin b => fdiv a b
  | fin _, pinf => fin 0
  | fin _, ninf => fin 0
  | pinf, fin b => if b < 0 then ninf else pinf
  | ninf, fin b => if b < 0 then pinf else ninf
  | pinf, pinf => nan
  | pinf, ninf => nan
  | ninf, pinf => nan
  | ninf, ninf => nan

/-- IEEE addition. -/
def add (v w : FVal) : FVal :=
  match v, w with
  | nan, _ => nan
  | _, nan => nan
  | fin a, fin b => fin (a + b)
  | pinf, ninf => nan
  | ninf, pinf => nan
  | pinf, _ => pinf
  | _, pinf => pinf
  | ninf, _ => ninf
  | _, ninf => ninf

/-- IEEE negation. -/
def neg (v : FVal) : FVal :=
  match v with
  | fin a => fin (-a)
  | pinf => ninf
  | ninf => pinf
  | nan => nan

/-- IEEE subtraction. -/
def sub (v w : FVal) : FVal := add v (neg w)

/-- IEEE multiplication. -/
def mul (v w : FVal) : FVal :=
  match v, w with
  | nan, _ => nan
  | _, nan => nan
  | fin a, fin b => fin (a * b)
  | fin a, pinf => if a = 0 then nan else if a < 0 then ninf else pinf
  | fin a, ninf => if a = 0 then nan else if a < 0 then pinf else ninf
  | pinf, fin b => if b = 0 then nan else if b < 0 then ninf else pinf
  | ninf, fin b => if b = 0 then nan else if b < 0 then pinf else ninf
  | pinf, pinf => pinf
  | pinf, ninf => ninf
  | ninf, pinf => ninf
  | ninf, ninf => pinf

/-- IEEE `exp`: `exp(-inf) = 0`, `exp(+inf) = +inf`, `exp(NaN) = NaN`. -/
def exp (v : FVal) : FVal :=
  match v with
  | fin a => fin (Real.exp a)
  | pinf => pinf
  | ninf => fin 0
  | nan => nan

/-- The comparison `v >= 0` (false on NaN, as in IEEE). -/
def ge0 (v : FVal) : Prop :=
  match v with
  | fin a => 0 ≤ a
  | pinf => True
  | ninf => False
  | nan => False

/-- The comparison `v <= 1` (false on NaN, as in IEEE). -/
def le1 (v : FVal) : Prop :=
  match v with
  | fin a => a ≤ 1
  | pinf => False
  | ninf => True
  | nan => False

/-- Underlying real value of a finite `FVal` (junk 0 on the special values;
only ever used under guards that force finiteness). -/
def toReal (v : FVal) : ℝ :=
  match v with
  | fin a => a
  | _ => 0

end FVal

/-- The fields of `struct reb_particle` used by the integrator core. -/
structure Particle where
  m : ℝ := 0
  r : ℝ := 0
  x : ℝ := 0
  y : ℝ := 0
  z : ℝ := 0
  vx : ℝ := 0
  vy : ℝ := 0
  vz : ℝ := 0

/-- Collision record: `reb_mercurana_record_collision` stores the indices of
the two particles and a ghost-box snapshot of particle `i`'s state. -/
structure CollRec where
  p1 : ℕ
  p2 : ℕ
  gb : Particle

/-- Collision mode of the simulation (`r->collision`); the integrator only
ever tests equality with `REB_COLLISION_DIRECT`. -/
inductive CollMode where
  | collNone : CollMode
  | collDirect : CollMode
  | collOther : CollMode
deriving DecidableEq

/-- The shared mutable state of `struct reb_simulation` /
`struct reb_simulation_integrator_mercurana` that the integrator reads and
writes.  Heap arrays are modelled as total functions from indices; each shell
map is a backing array (`map_X s j`) together with its current length
(`shellN_X s`), so that reads of stale slots beyond the current length (which
the C code performs in the max-drift phase) are represented faithfully. -/
structure SimState where
  N : ℕ
  particles : ℕ → Particle
  t : ℝ
  collision : CollMode
  N_dominant : ℕ
  Nmaxshells : ℕ
  Nmaxshellsused : ℕ
  n0 : ℕ
  n1 : ℕ
  kappa : ℝ
  allocatedN : ℕ
  dcrit : ℕ → ℕ → ℝ
  map_encounter : ℕ → ℕ → ℕ
  map_dominant : ℕ → ℕ → ℕ
  map_subdominant : ℕ → ℕ → ℕ
  shellN_encounter : ℕ → ℕ
  shellN_dominant : ℕ → ℕ
  shellN_subdominant : ℕ → ℕ
  inshell_encounter : ℕ → ℕ
  inshell_dominant : ℕ → ℕ
  inshell_subdominant : ℕ → ℕ
  t_drifted : ℕ → ℝ
  maxdrift_encounter : ℕ → ℝ
  maxdrift_dominant : ℕ → ℝ
  p0 : ℕ → Particle
  collisions : List CollRec

/-- Pointwise update of a one-dimensional array. -/
def upd1 {α : Type} (f : ℕ → α) (i : ℕ) (v : α) : ℕ → α :=
  fun j => if j = i then v else f j

/-- Pointwise update of a two-dimensional array. -/
def upd2 {α : Type} (f : ℕ → ℕ → α) (i j : ℕ) (v : α) : ℕ → ℕ → α :=
  fun a b => if a = i ∧ b = j then v else f a b

/-- The contents of shell map `map_dominant[s]`: the first `shellN_dominant[s]`
entries of the backing array. -/
def mapListDominant (st : SimState) (s : ℕ) : List ℕ :=
  (List.range (st.shellN_dominant s)).map (st.map_dominant s)

/-- The contents of shell map `map_subdominant[s]`. -/
def mapListSubdominant (st : SimState) (s : ℕ) : List ℕ :=
  (List.range (st.shellN_subdominant s)).map (st.map_subdominant s)

/-- The contents of shell map `map_encounter[s]`. -/
def mapListEncounter (st : SimState) (s : ℕ) : List ℕ :=
  (List.range (st.shellN_encounter s)).map (st.map_encounter s)

/-- Equality of all shell memberships (contents and lengths of every
`map_dominant`, `map_subdominant` and `map_encounter` sequence). -/
def mapsEq (a b : SimState) : Prop :=
  (∀ s, a.shellN_dominant s = b.shellN_dominant s) ∧
  (∀ s, a.shellN_subdominant s = b.shellN_subdominant s) ∧
  (∀ s, a.shellN_encounter s = b.shellN_encounter s) ∧
  (∀ s, mapListDominant a s = mapListDominant b s) ∧
  (∀ s, mapListSubdominant a s = mapListSubdominant b s) ∧
  (∀ s, mapListEncounter a s = mapListEncounter b s)

/-!  ## The encounter predictor (source lines 94–127)  -/

/-- `copysign(1., dt)`; `ℝ` has no negative zero, so the sign of `0` is `+`. -/
def copysign1 (dt : ℝ) : ℝ := if dt < 0 then -1 else 1

/-- `reb_mercurana_predict_rmin2` (source lines 94–119): squared closest
approach of two particles over a drift of length `dt` assuming linear motion.
The closest-approach time is a double division that can be `0/0`; its IEEE
behaviour is modelled through `FVal`.  `MIN(a,b)` is real `min`. -/
def reb_mercurana_predict_rmin2 (p1 p2 : Particle) (dt0 : ℝ) : ℝ :=
  let dts := copysign1 dt0
  let dt := |dt0|
  let dx1 := p1.x - p2.x
  let dy1 := p1.y - p2.y
  let dz1 := p1.z - p2.z
  let r1 := dx1 * dx1 + dy1 * dy1 + dz1 * dz1
  let dvx1 := dts * (p1.vx - p2.vx)
  let dvy1 := dts * (p1.vy - p2.vy)
  let dvz1 := dts * (p1.vz - p2.vz)
  let dx2 := dx1 + dt * dvx1
  let dy2 := dy1 + dt * dvy1
  let dz2 := dz1 + dt * dvz1
  let r2 := dx2 * dx2 + dy2 * dy2 + dz2 * dz2
  let t_closest := FVal.fdiv (dx1 * dvx1 + dy1 * dvy1 + dz1 * dvz1)
      (dvx1 * dvx1 + dvy1 * dvy1 + dvz1 * dvz1)
  let tc := t_closest.toReal
  let dx3 := dx1 + tc * dvx1
  let dy3 := dy1 + tc * dvy1
  let dz3 := dz1 + tc * dvz1
  let r3 := dx3 * dx3 + dy3 * dy3 + dz3 * dz3
  let rmin2 := min r1 r2
  if (t_closest.divR dt).ge0 ∧ (t_closest.divR dt).le1 then min rmin2 r3 else rmin2

/-- `reb_mercurana_predict_rmin2_drifted` (source lines 121–127): advance `p2`
linearly by `p2drift` before evaluating the predictor. -/
def reb_mercurana_predict_rmin2_drifted (p1 p2 : Particle) (dt p2drift : ℝ) : ℝ :=
  reb_mercurana_predict_rmin2 p1
    { p2 with x := p2.x + p2drift * p2.vx,
              y := p2.y + p2drift * p2.vy,
              z := p2.z + p2drift * p2.vz } dt

/-!  ## The switching function (source lines 54–91)  -/

/-- Helper `f` (source lines 55–58): `0` for `x < 0`, else `exp(-1./x)`.
At `x = 0` the IEEE evaluation is `exp(-inf) = 0`. -/
def f (x : ℝ) : FVal :=
  if x < 0 then FVal.fin 0 else FVal.exp (FVal.fdiv (-1) x)

/-- Helper `dfdy` (source lines 60–63): `0` for `x < 0`, else
`exp(-1./x)/(x*x)`.  At `x = 0` the IEEE evaluation is `0/0 = NaN`. -/
def dfdy (x : ℝ) : FVal :=
  if x < 0 then FVal.fin 0 else FVal.div (FVal.exp (FVal.fdiv (-1) x)) (FVal.fin (x * x))

/-- `reb_integrator_mercurana_L_infinity` (source lines 66–75), the default
infinitely differentiable switching function. -/
def reb_integrator_mercurana_L_infinity (d ri ro : ℝ) : FVal :=
  let y := (d - ri) / (ro - ri)
  if y < 0 then FVal.fin 0
  else if y > 1 then FVal.fin 1
  else FVal.div (f y) (FVal.add (f y) (f (1 - y)))

/-- `reb_integrator_mercurana_dLdr_infinity` (source lines 78–91), the first
derivative of the switching function. -/
def reb_integrator_mercurana_dLdr_infinity (d ri ro : ℝ) : FVal :=
  let y := (d - ri) / (ro - ri)
  let dydr := 1 / (ro - ri)
  if y < 0 then FVal.fin 0
  else if y > 1 then FVal.fin 0
  else
    FVal.mul (FVal.fin dydr)
      (FVal.sub
        (FVal.div (dfdy y) (FVal.add (f y) (f (1 - y))))
        (FVal.mul
          (FVal.div (FVal.div (f y) (FVal.add (f y) (f (1 - y))))
            (FVal.add (f y) (f (1 - y))))
          (FVal.sub (dfdy y) (dfdy (1 - y)))))

/-!  ## Shell-membership engine: `reb_mercurana_encounter_predict`
     (source lines 151–362)  -/

/-- `reb_mercurana_record_collision` (source lines 130–148): append a
collision record with a ghost-box snapshot of particle `i`. -/
def reb_mercurana_record_collision (st : SimState) (i j : ℕ) : SimState :=
  { st with collisions := st.collisions ++ [⟨i, j, st.particles i⟩] }

/-- Promotion of particle `mi` into the dominant map of shell `shell+1`
(source lines 271–274 / 301–304): set `inshell_dominant[mi] = shell+1` and
append `mi` to `map_dominant[shell+1]`. -/
def promoteDominant (st : SimState) (shell mi : ℕ) : SimState :=
  { st with
    inshell_dominant := upd1 st.inshell_dominant mi (shell + 1),
    map_dominant := upd2 st.map_dominant (shell + 1) (st.shellN_dominant (shell + 1)) mi,
    shellN_dominant := upd1 st.shellN_dominant (shell + 1) (st.shellN_dominant (shell + 1) + 1) }

/-- Promotion of particle `mj` into the subdominant map of shell `shell+1`
(source lines 306–310).  The guard and the write both go through the local
`inshell_subdominant`, which the source aliases to `rim->inshell_dominant`
(source line 170), so the write lands in `inshell_dominant`. -/
def promoteSubdominant (st : SimState) (shell mj : ℕ) : SimState :=
  { st with
    inshell_dominant := upd1 st.inshell_dominant mj (shell + 1),
    map_subdominant := upd2 st.map_subdominant (shell + 1) (st.shellN_subdominant (shell + 1)) mj,
    shellN_subdominant := upd1 st.shellN_subdominant (shell + 1) (st.shellN_subdominant (shell + 1) + 1) }

/-- Promotion of particle `mi` into the encounter map of shell `shell+1`
(source lines 332–335 / 337–340). -/
def promoteEncounter (st : SimState) (shell mi : ℕ) : SimState :=
  { st with
    inshell_encounter := upd1 st.inshell_encounter mi (shell + 1),
    map_encounter := upd2 st.map_encounter (shell + 1) (st.shellN_encounter (shell + 1)) mi,
    shellN_encounter := upd1 st.shellN_encounter (shell + 1) (st.shellN_encounter (shell + 1) + 1) }

/-- Append `mj` to the encounter map of shell `s` without touching `inshell`
(the loop body of source lines 240–243 in the max-drift phase). -/
def appendEncounter (st : SimState) (s mj : ℕ) : SimState :=
  { st with
    map_encounter := upd2 st.map_encounter s (st.shellN_encounter s) mj,
    shellN_encounter := upd1 st.shellN_encounter s (st.shellN_encounter s + 1) }

/-- `maxdrift_dominant[k] = MIN(maxdrift_dominant[k], md)`. -/
def minMaxdriftDominant (st : SimState) (k : ℕ) (md : ℝ) : SimState :=
  { st with maxdrift_dominant := upd1 st.maxdrift_dominant k (min (st.maxdrift_dominant k) md) }

/-- `maxdrift_encounter[k] = MIN(maxdrift_encounter[k], md)`. -/
def minMaxdriftEncounter (st : SimState) (k : ℕ) (md : ℝ) : SimState :=
  { st with maxdrift_encounter := upd1 st.maxdrift_encounter k (min (st.maxdrift_encounter k) md) }

/-- Advance a particle linearly by time `a`. -/
def driftParticle (p : Particle) (a : ℝ) : Particle :=
  { p with x := p.x + a * p.vx, y := p.y + a * p.vy, z := p.z + a * p.vz }

/-- Bootstrap of the outermost shell (source lines 185–206, the `shell==0`
branch): dominant map `[0,N_dom)`, subdominant and encounter maps
`[N_dom,N)`, `maxdrift = 1e300`, `inshell = 0`.  The loop at lines 200–206
resets `inshell_subdominant` through the aliased pointer, i.e. it writes
`inshell_dominant` a second time; the real `inshell_subdominant` array is
never written by this function. -/
def bootstrapShell0 (st : SimState) : SimState :=
  let nd := st.N_dominant
  let ns := st.N - st.N_dominant
  { st with
    shellN_dominant := upd1 st.shellN_dominant 0 nd,
    shellN_subdominant := upd1 st.shellN_subdominant 0 ns,
    shellN_encounter := upd1 st.shellN_encounter 0 ns,
    map_dominant := fun s j => if s = 0 ∧ j < nd then j else st.map_dominant s j,
    map_subdominant := fun s j => if s = 0 ∧ j < ns then nd + j else st.map_subdominant s j,
    map_encounter := fun s j => if s = 0 ∧ j < ns then nd + j else st.map_encounter s j,
    maxdrift_dominant := fun i => if i < st.N then 1e300 else st.maxdrift_dominant i,
    maxdrift_encounter := fun i => if i < st.N then 1e300 else st.maxdrift_encounter i,
    inshell_encounter := fun i => if i < st.N then 0 else st.inshell_encounter i,
    inshell_dominant := fun i => if i < st.N then 0 else st.inshell_dominant i }

/-- Inner loop body of the max-drift reconciliation (source lines 230–254):
for a fixed violating encounter particle `mi` of shell `shell`, examine slot
`j`.  NOTE (faithful to the source): `mj` is read from `map_encounter[shell]`
(the local pointer of line 160) although the loop bound is
`shellN_encounter[0]`, so slots beyond the shell-`shell` length are stale. -/
def maxdriftInner (dt : ℝ) (shell mi : ℕ) (st : SimState) (j : ℕ) : SimState :=
  let mj := st.map_encounter shell j
  if st.inshell_encounter mj < shell then
    let toff := st.t_drifted mi - st.t_drifted mj
    let rmin2 := reb_mercurana_predict_rmin2_drifted (st.particles mi) (st.particles mj) dt toff
    let dcritsum := st.dcrit shell mi + st.dcrit shell mj
    if rmin2 < dcritsum * dcritsum then
      let st := { st with inshell_encounter := upd1 st.inshell_encounter mj shell }
      let st := (List.range' 1 shell).foldl (fun st s => appendEncounter st s mj) st
      { st with particles := upd1 st.particles mj (driftParticle (st.particles mj) toff) }
    else
      minMaxdriftDominant st mi ((Real.sqrt rmin2 - dcritsum) / 2)
  else st

/-- Outer loop body of the max-drift reconciliation (source lines 222–256):
if encounter particle `mi`'s displacement since `p0[mi]` exceeds
`maxdrift_encounter[mi]`, run the inner rescan.  The inner loop bound
`shellN_encounter[0]` is read live from the state (it is never modified by
the phase, which only appends to shells `1..shell`). -/
def maxdriftOuter (dt : ℝ) (shell : ℕ) (st : SimState) (i : ℕ) : SimState :=
  let mi := st.map_encounter shell i
  let dx := (st.particles mi).x - (st.p0 mi).x
  let dy := (st.particles mi).y - (st.p0 mi).y
  let dz := (st.particles mi).z - (st.p0 mi).z
  let drift := Real.sqrt (dx * dx + dy * dy + dz * dz)
  if drift > st.maxdrift_encounter mi then
    (List.range (st.shellN_encounter 0)).foldl (maxdriftInner dt shell mi) st
  else st

/-- The max-drift reconciliation phase (source lines 222–256), run for
`shell > 0`; `sNe` is the shell-`shell` encounter count captured at entry
(source line 156). -/
def maxdriftPhase (dt : ℝ) (shell sNe : ℕ) (st : SimState) : SimState :=
  (List.range sNe).foldl (maxdriftOuter dt shell) st

/-- Inner loop body of pass (1), dominant–dominant (source lines 262–286).
`rmin2`, `rsum`, `dcritsum` and the first promotion guard are reads of data
the collision recorder does not touch (the source reads them through
pointers captured at function entry), so they are taken from the incoming
state `st0`; the recorder's effect is threaded through `st`. -/
def domdomInner (dt : ℝ) (shell mi : ℕ) (st0 : SimState) (j : ℕ) : SimState :=
  let mj := st0.map_dominant shell j
  let rmin2 := reb_mercurana_predict_rmin2 (st0.particles mi) (st0.particles mj) dt
  let rsum := (st0.particles mi).r + (st0.particles mj).r
  let dcritsum := st0.dcrit shell mi + st0.dcrit shell mj
  let st := if rmin2 < rsum * rsum ∧ st0.collision = CollMode.collDirect then
      reb_mercurana_record_collision st0 mi mj else st0
  if rmin2 < dcritsum * dcritsum then
    let st1 := if st0.inshell_dominant mi = shell then promoteDominant st shell mi else st
    if st1.inshell_dominant mj = shell then promoteDominant st1 shell mj else st1
  else
    let md := (Real.sqrt rmin2 - dcritsum) / 2
    minMaxdriftDominant (minMaxdriftDominant st mi md) mj md

/-- One outer iteration of pass (1): fix `mi = map_dominant[shell][i]` and
scan the later entries `j > i`. -/
def domdomOuter (dt : ℝ) (shell sNd : ℕ) (st : SimState) (i : ℕ) : SimState :=
  (List.range' (i + 1) (sNd - (i + 1))).foldl (domdomInner dt shell (st.map_dominant shell i)) st

/-- Pass (1), dominant–dominant (source lines 260–287), over unordered pairs
of the first `sNd` entries of `map_dominant[shell]`. -/
def domdomPass (dt : ℝ) (shell sNd : ℕ) (st : SimState) : SimState :=
  (List.range sNd).foldl (domdomOuter dt shell sNd) st

/-- Inner loop body of pass (2), dominant–subdominant (source lines 292–317).
The guard for promoting `mj` reads the aliased `inshell_subdominant`
pointer, i.e. `inshell_dominant[mj]` (source lines 170, 306). -/
def domsubInner (dt : ℝ) (shell mi : ℕ) (st0 : SimState) (j : ℕ) : SimState :=
  let mj := st0.map_subdominant shell j
  let rmin2 := reb_mercurana_predict_rmin2 (st0.particles mi) (st0.particles mj) dt
  let rsum := (st0.particles mi).r + (st0.particles mj).r
  let dcritsum := st0.dcrit shell mi + st0.dcrit shell mj
  let st := if rmin2 < rsum * rsum ∧ st0.collision = CollMode.collDirect then
      reb_mercurana_record_collision st0 mi mj else st0
  if rmin2 < dcritsum * dcritsum then
    let st1 := if st0.inshell_dominant mi = shell then promoteDominant st shell mi else st
    if st1.inshell_dominant mj = shell then promoteSubdominant st1 shell mj else st1
  else
    let md := (Real.sqrt rmin2 - dcritsum) / 2
    minMaxdriftDominant (minMaxdriftDominant st mi md) mj md

/-- One outer iteration of pass (2). -/
def domsubOuter (dt : ℝ) (shell sNs : ℕ) (st : SimState) (i : ℕ) : SimState :=
  (List.range sNs).foldl (domsubInner dt shell (st.map_dominant shell i)) st

/-- Pass (2), dominant–subdominant (source lines 290–318). -/
def domsubPass (dt : ℝ) (shell sNd sNs : ℕ) (st : SimState) : SimState :=
  (List.range sNd).foldl (domsubOuter dt shell sNs) st

/-- Inner loop body of pass (4), encounter–encounter (source lines 323–347). -/
def encencInner (dt : ℝ) (shell mi : ℕ) (st0 : SimState) (j : ℕ) : SimState :=
  let mj := st0.map_encounter shell j
  let rmin2 := reb_mercurana_predict_rmin2 (st0.particles mi) (st0.particles mj) dt
  let rsum := (st0.particles mi).r + (st0.particles mj).r
  let dcritsum := st0.dcrit shell mi + st0.dcrit shell mj
  let st := if rmin2 < rsum * rsum ∧ st0.collision = CollMode.collDirect then
      reb_mercurana_record_collision st0 mi mj else st0
  if rmin2 < dcritsum * dcritsum then
    let st1 := if st0.inshell_encounter mi = shell then promoteEncounter st shell mi else st
    if st1.inshell_encounter mj = shell then promoteEncounter st1 shell mj else st1
  else
    let md := (Real.sqrt rmin2 - dcritsum) / 2
    minMaxdriftEncounter (minMaxdriftEncounter st mi md) mj md

/-- One outer iteration of pass (4). -/
def encencOuter (dt : ℝ) (shell sNe : ℕ) (st : SimState) (i : ℕ) : SimState :=
  (List.range' (i + 1) (sNe - (i + 1))).foldl (encencInner dt shell (st.map_encounter shell i)) st

/-- Pass (4), encounter–encounter (source lines 321–348). -/
def encencPass (dt : ℝ) (shell sNe : ℕ) (st : SimState) : SimState :=
  (List.range sNe).foldl (encencOuter dt shell sNe) st

/-- The resets at the top of the predictor body (source lines 179–183):
zero the collision counter and the `shell+1` map lengths. -/
def predictReset (st0 : SimState) (shell : ℕ) : SimState :=
  { st0 with
    collisions := [],
    shellN_encounter := upd1 st0.shellN_encounter (shell + 1) 0,
    shellN_dominant := upd1 st0.shellN_dominant (shell + 1) 0,
    shellN_subdominant := upd1 st0.shellN_subdominant (shell + 1) 0 }

/-- The body of `reb_mercurana_encounter_predict` after the early return
(source lines 179–348): reset the collision counter and the `shell+1`
counts, bootstrap (shell 0) or max-drift reconciliation (shell > 0), then the
three pair scans.  The local loop bounds `shellN_*` are captured before the
max-drift phase for `shell > 0` (source lines 156–158) and re-captured after
the bootstrap for `shell = 0` (source lines 190–192). -/
def encounterPredictBody (st0 : SimState) (dt : ℝ) (shell : ℕ) : SimState :=
  let st1 := predictReset st0 shell
  let st2 := if shell = 0 then bootstrapShell0 st1
             else maxdriftPhase dt shell (st1.shellN_encounter shell) st1
  let sNd := if shell = 0 then st2.shellN_dominant 0 else st1.shellN_dominant shell
  let sNs := if shell = 0 then st2.shellN_subdominant 0 else st1.shellN_subdominant shell
  let sNe := if shell = 0 then st2.shellN_encounter 0 else st1.shellN_encounter shell
  encencPass dt shell sNe (domsubPass dt shell sNd sNs (domdomPass dt shell sNd st2))

/-- `reb_mercurana_encounter_predict` (source lines 151–362).  `cs` stands for
the external collision resolver `reb_collision_search` (collision.c, not part
of this source file); `fuel` bounds the re-entry of the predictor after the
resolver changes the particle number (source lines 353–361).  If
`shell+1 >= Nmaxshells` the function returns immediately (source lines
175–177). -/
def reb_mercurana_encounter_predict :
    ℕ → (SimState → SimState) → SimState → ℝ → ℕ → SimState
  | 0, _, st, _, _ => st
  | fuel + 1, cs, st, dt, shell =>
    if shell + 1 ≥ st.Nmaxshells then st
    else
      let st1 := encounterPredictBody st dt shell
      if st1.collisions = [] then st1
      else
        let nBefore := st1.N
        let st2 := cs st1
        let st3 := if nBefore ≠ st2.N then reb_mercurana_encounter_predict fuel cs st2 dt shell
                   else st2
        { st3 with collisions := [] }

/-!  ## The drift operator: `reb_integrator_mercurana_drift_step`
     (source lines 414–481)  -/

/-- Advance guard of the dominant drift loop (source line 434). -/
abbrev driftCondDominant (st : SimState) (shell mi : ℕ) : Prop :=
  st.inshell_dominant mi = shell

/-- Advance guard of the subdominant drift loop (source line 443).  The local
`inshell_subdominant` is aliased to `rim->inshell_dominant` (source line
429), so the first conjunct reads `inshell_dominant`. -/
abbrev driftCondSubdominant (st : SimState) (shell mi : ℕ) : Prop :=
  st.inshell_dominant mi = shell ∧ st.inshell_encounter mi ≤ shell

/-- Advance guard of the encounter drift loop (source line 452); the first
conjunct reads `inshell_dominant` through the same alias. -/
abbrev driftCondEncounter (st : SimState) (shell mi : ℕ) : Prop :=
  st.inshell_dominant mi < shell ∧ st.inshell_encounter mi = shell

/-- Advance particle `mi` by `a` and account its drift time (source lines
435–438 et al.). -/
def driftAdvance (st : SimState) (mi : ℕ) (a : ℝ) : SimState :=
  { st with
    particles := upd1 st.particles mi (driftParticle (st.particles mi) a),
    t_drifted := upd1 st.t_drifted mi (st.t_drifted mi + a) }

/-- The three direct drift loops of `reb_integrator_mercurana_drift_step`
(source lines 432–458). -/
def driftLoops (st : SimState) (a : ℝ) (shell : ℕ) : SimState :=
  let st := (List.range (st.shellN_dominant shell)).foldl (fun st i =>
    let mi := st.map_dominant shell i
    if driftCondDominant st shell mi then driftAdvance st mi a else st) st
  let st := (List.range (st.shellN_subdominant shell)).foldl (fun st i =>
    let mi := st.map_subdominant shell i
    if driftCondSubdominant st shell mi then driftAdvance st mi a else st) st
  (List.range (st.shellN_encounter shell)).foldl (fun st i =>
    let mi := st.map_encounter shell i
    if driftCondEncounter st shell mi then driftAdvance st mi a else st) st

/-- `reb_integrator_mercurana_drift_step` (source lines 414–481).  The
recursive descent into shell `shell+1` goes through the external EOS
operator-splitting driver (integrator_eos.c, not part of this source file);
`subdriver` stands for that composite (source lines 464–474).  The
cooperative interrupt poll of line 416 is not modelled. -/
def reb_integrator_mercurana_drift_step (fuel : ℕ) (cs : SimState → SimState)
    (subdriver : SimState → ℝ → ℕ → SimState) (st0 : SimState) (a : ℝ) (shell : ℕ) :
    SimState :=
  let st := reb_mercurana_encounter_predict fuel cs st0 a shell
  let st := driftLoops st a shell
  if shell + 1 < st.Nmaxshells then
    if 0 < st.shellN_encounter (shell + 1) ∨ 0 < st.shellN_dominant (shell + 1) then
      subdriver { st with Nmaxshellsused := max st.Nmaxshellsused (shell + 2) } a shell
    else { st with t := st.t + a }
  else { st with t := st.t + a }

/-!  ## Lifecycle: `part1` and `part2` (source lines 485–676)  -/

/-- The configuration checks of `reb_integrator_mercurana_part1` (source
lines 490–505).  `Nmaxshells`, `n0`, `n1` are unsigned in the source, so
`<= 0` and truthiness become `= 0` and `≠ 0`.  A failed check reports on the
host error channel (`reb_error`) and returns before the allocation block of
lines 507–555; `body` stands for everything after the checks (allocation,
dcrit refresh, mode warnings), which the error path never reaches. -/
def reb_integrator_mercurana_part1 (body : SimState → SimState) (st : SimState) :
    Except String SimState :=
  if st.Nmaxshells = 0 then .error "Nmaxshells needs to be larger than 0."
  else if st.Nmaxshells = 1 ∧ st.n0 ≠ 0 then
    .error "Nmaxshells>=2 is required if n0 is greater than 0."
  else if st.Nmaxshells = 2 ∧ st.n1 ≠ 0 then
    .error "Nmaxshells>=3 is required if n1 is greater than 0."
  else if 1 < st.Nmaxshells ∧ st.kappa ≤ 0 then
    .error "kappa>0 is required if Nmaxshells>1."
  else .ok (body st)

/-- `reb_integrator_mercurana_part2` (source lines 648–676): if the earlier
`part1` never allocated (`allocatedN < N`), return immediately leaving the
state unchanged; otherwise run one global step, abstracted as `body`
(snapshot `p0`, zero `t_drifted`, EOS preprocessor/step through the external
driver). -/
def reb_integrator_mercurana_part2 (body : SimState → SimState) (st : SimState) : SimState :=
  if st.allocatedN < st.N then st else body st

/-!  ## Spec-side quantities for the predictor claims  -/

/-- Squared separation of two particles at the beginning of the drift. -/
def sepSq (p1 p2 : Particle) : ℝ :=
  (p1.x - p2.x) * (p1.x - p2.x) + (p1.y - p2.y) * (p1.y - p2.y) +
    (p1.z - p2.z) * (p1.z - p2.z)

/-- Squared separation at the end of the drift, `τ = |∆t|`, under linear
motion with the sign of `∆t` absorbed into the relative velocity. -/
def driftedSepSq (p1 p2 : Particle) (dt0 : ℝ) : ℝ :=
  let dts := copysign1 dt0
  let dt := |dt0|
  (p1.x - p2.x + dt * (dts * (p1.vx - p2.vx))) * (p1.x - p2.x + dt * (dts * (p1.vx - p2.vx))) +
  (p1.y - p2.y + dt * (dts * (p1.vy - p2.vy))) * (p1.y - p2.y + dt * (dts * (p1.vy - p2.vy))) +
  (p1.z - p2.z + dt * (dts * (p1.vz - p2.vz))) * (p1.z - p2.z + dt * (dts * (p1.vz - p2.vz)))

/-- Squared norm of the (sign-absorbed) relative velocity `|∆v|²`. -/
def dvSq (p1 p2 : Particle) (dt0 : ℝ) : ℝ :=
  let dts := copysign1 dt0
  (dts * (p1.vx - p2.vx)) * (dts * (p1.vx - p2.vx)) +
  (dts * (p1.vy - p2.vy)) * (dts * (p1.vy - p2.vy)) +
  (dts * (p1.vz - p2.vz)) * (dts * (p1.vz - p2.vz))

/-- The analytic extremum time `τ* = (∆r · ∆v)/|∆v|²` of the squared
separation (meaningful when `|∆v|² ≠ 0`). -/
def tstar (p1 p2 : Particle) (dt0 : ℝ) : ℝ :=
  let dts := copysign1 dt0
  ((p1.x - p2.x) * (dts * (p1.vx - p2.vx)) + (p1.y - p2.y) * (dts * (p1.vy - p2.vy)) +
    (p1.z - p2.z) * (dts * (p1.vz - p2.vz))) / dvSq p1 p2 dt0

/-- A concrete state with every array zeroed; witnesses and counterexamples
override the fields they need. -/
def baseState : SimState where
  N := 0
  particles := fun _ => {}
  t := 0
  collision := CollMode.collOther
  N_dominant := 0
  Nmaxshells := 1
  Nmaxshellsused := 1
  n0 := 0
  n1 := 0
  kappa := 1
  allocatedN := 0
  dcrit := fun _ _ => 0
  map_encounter := fun _ _ => 0
  map_dominant := fun _ _ => 0
  map_subdominant := fun _ _ => 0
  shellN_encounter := fun _ => 0
  shellN_dominant := fun _ => 0
  shellN_subdominant := fun _ => 0
  inshell_encounter := fun _ => 0
  inshell_dominant := fun _ => 0
  inshell_subdominant := fun _ => 0
  t_drifted := fun _ => 0
  maxdrift_encounter := fun _ => 0
  maxdrift_dominant := fun _ => 0
  p0 := fun _ => {}
  collisions := []

/-- Concrete state for the C2 counterexample: two overlapping finite-radius
particles, DIRECT collision mode, but only one shell (`Nmaxshells = 1`). -/
def cexC2 : SimState :=
  { baseState with
    N := 2,
    Nmaxshells := 1,
    collision := CollMode.collDirect,
    particles := fun i => if i = 0 then { r := 1 } else { r := 1, x := 1 } }

/-- Concrete state for the C6 witness: at shell 1, dominant map `[2]`,
subdominant map `[1]`, encounter map `[1]`; particle 1 is owned by shell 1
in both roles. -/
def wstC6 : SimState :=
  { baseState with
    N := 3,
    shellN_dominant := fun s => if s = 1 then 1 else 0,
    shellN_subdominant := fun s => if s = 1 then 1 else 0,
    shellN_encounter := fun s => if s = 1 then 1 else 0,
    map_dominant := fun _ _ => 2,
    map_subdominant := fun _ _ => 1,
    map_encounter := fun _ _ => 1,
    inshell_dominant := fun _ => 1,
    inshell_encounter := fun _ => 1 }

/-- Concrete state for C3: one dominant particle (index 0) and one
subdominant particle (index 1) within each other's critical radius; the real
`inshell_subdominant` array is pre-filled with the sentinel 99. -/
def cexC3 : SimState :=
  { baseState with
    N := 2,
    N_dominant := 1,
    Nmaxshells := 2,
    dcrit := fun _ _ => 10,
    particles := fun i => if i = 0 then {} else { x := 1 },
    inshell_subdominant := fun _ => 99 }

/-- Concrete state for C4, at shell 1: `map_encounter[0] = [0,1,2]`,
`map_encounter[1] = [0]` (stale backing slots hold 0); particle 0 has
drifted 5 since `p0[0]` with `maxdrift_encounter[0] = 1`, and shell-0
encounter particle 1 sits within the critical radius of particle 0. -/
def cexC4 : SimState :=
  { baseState with
    N := 3,
    N_dominant := 0,
    Nmaxshells := 3,
    dcrit := fun _ _ => 10,
    particles := fun i =>
      if i = 0 then { x := 3, y := 4 } else if i = 1 then { x := 4, y := 4 } else { x := 100 },
    p0 := fun i => if i = 0 then {} else if i = 1 then { x := 4, y := 4 } else { x := 100 },
    map_encounter := fun s j => if s = 0 then j else 0,
    shellN_encounter := fun s => if s = 0 then 3 else if s = 1 then 1 else 0,
    inshell_encounter := fun i => if i = 0 then 1 else 0,
    maxdrift_encounter := fun _ => 1 }

/-- Concrete state for C5, at shell 1 with one dominant particle (index 0):
`map_encounter[0] = [1,2]`, `map_encounter[1] = [1]` whose stale backing
slot 1 holds the dominant index 0; particle 1 violates its max-drift bound
and particle 0 sits close to it. -/
def cexC5 : SimState :=
  { baseState with
    N := 3,
    N_dominant := 1,
    Nmaxshells := 3,
    dcrit := fun _ _ => 10,
    particles := fun i => if i = 1 then { x := 1 } else if i = 0 then { x := 2 } else { x := 100 },
    p0 := fun i => if i = 1 then {} else if i = 0 then { x := 2 } else { x := 100 },
    map_encounter := fun s j => if s = 0 then (if j = 0 then 1 else 2) else (if j = 0 then 1 else 0),
    shellN_encounter := fun s => if s = 0 then 2 else if s = 1 then 1 else 0,
    inshell_encounter := fun i => if i = 1 then 1 else 0,
    maxdrift_encounter := fun i => if i = 1 then 1 / 2 else 1 }

/-- Concrete state for the C1 counterexample, at shell 1: two encounter
particles owned by shell 1 (`inshell_encounter = 1`), within each other's
critical radius, with no max-drift violation and no collision. -/
def cexC1 : SimState :=
  { baseState with
    N := 2,
    Nmaxshells := 3,
    dcrit := fun _ _ => 10,
    particles := fun i => if i = 0 then {} else { x := 1 },
    p0 := fun i => if i = 0 then {} else { x := 1 },
    map_encounter := fun _ j => if j = 0 then 0 else 1,
    shellN_encounter := fun s => if s ≤ 1 then 2 else 0,
    inshell_encounter := fun _ => 1,
    maxdrift_encounter := fun _ => 5 }

/-- The state of `cexC1` after the collision-counter and shell-2 count
resets at the top of `predict(1,·)`. -/
def cexC1r : SimState := predictReset cexC1 1

/-- The result of the first `predict(1, 1)` on `cexC1`: both encounter
particles promoted into shell 2. -/
def stC1 : SimState := promoteEncounter (promoteEncounter cexC1r 1 0) 1 1

/-!  ## C1 (amended): predict at shell 0 is insensitive to everything the
bootstrap rebuilds.

`PredInv nD nS nE a b` relates two states that agree on everything the
shell-0 pair scans read and write, except that the map backing arrays are
only required to agree below the current lengths (the slack slots differ
between a first and a second run, but are never read at shell 0).  The
shell-0 lengths are pinned to `nD`, `nS`, `nE` so that loop bounds stay
aligned along the folds. -/
structure PredInv (nD nS nE : ℕ) (a b : SimState) : Prop where
  hN : a.N = b.N
  hpart : a.particles = b.particles
  hdcrit : a.dcrit = b.dcrit
  hcoll : a.collision = b.collision
  hinsd : a.inshell_dominant = b.inshell_dominant
  hinse : a.inshell_encounter = b.inshell_encounter
  hmdd : a.maxdrift_dominant = b.maxdrift_dominant
  hmde : a.maxdrift_encounter = b.maxdrift_encounter
  hsd : a.shellN_dominant = b.shellN_dominant
  hss : a.shellN_subdominant = b.shellN_subdominant
  hse : a.shellN_encounter = b.shellN_encounter
  hmapd : ∀ s j, j < a.shellN_dominant s → a.map_dominant s j = b.map_dominant s j
  hmaps : ∀ s j, j < a.shellN_subdominant s → a.map_subdominant s j = b.map_subdominant s j
  hmape : ∀ s j, j < a.shellN_encounter s → a.map_encounter s j = b.map_encounter s j
  hnD : a.shellN_dominant 0 = nD
  hnS : a.shellN_subdominant 0 = nS
  hnE : a.shellN_encounter 0 = nE

/-- What a shell-0 predictor body leaves untouched, relative to the state
`st` it started from: the configuration, the particle data, the slots of the
per-particle arrays at or beyond `N`, and everything at shells ≥ 2. -/
structure BodyFrame (st x : SimState) : Prop where
  hN : x.N = st.N
  hNdom : x.N_dominant = st.N_dominant
  hNmax : x.Nmaxshells = st.Nmaxshells
  hcoll : x.collision = st.collision
  hpart : x.particles = st.particles
  hdcrit : x.dcrit = st.dcrit
  hinsdHi : ∀ i, st.N ≤ i → x.inshell_dominant i = st.inshell_dominant i
  hinseHi : ∀ i, st.N ≤ i → x.inshell_encounter i = st.inshell_encounter i
  hmddHi : ∀ i, st.N ≤ i → x.maxdrift_dominant i = st.maxdrift_dominant i
  hmdeHi : ∀ i, st.N ≤ i → x.maxdrift_encounter i = st.maxdrift_encounter i
  hsdHi : ∀ s, 2 ≤ s → x.shellN_dominant s = st.shellN_dominant s
  hssHi : ∀ s, 2 ≤ s → x.shellN_subdominant s = st.shellN_subdominant s
  hseHi : ∀ s, 2 ≤ s → x.shellN_encounter s = st.shellN_encounter s
  hmapdHi : ∀ s, 2 ≤ s → ∀ j, x.map_dominant s j = st.map_dominant s j
  hmapsHi : ∀ s, 2 ≤ s → ∀ j, x.map_subdominant s j = st.map_subdominant s j
  hmapeHi : ∀ s, 2 ≤ s → ∀ j, x.map_encounter s j = st.map_encounter s j

/-- Invariant carried through the shell-0 pair scans: the frame relative to
the original state `st`, the pinned shell-0 lengths, and the bound that all
shell-0 map entries are particle indices below `N`. -/
structure Pass0Inv (st : SimState) (nD nS nE : ℕ) (x : SimState) : Prop where
  frame : BodyFrame st x
  hnD : x.shellN_dominant 0 = nD
  hnS : x.shellN_subdominant 0 = nS
  hnE : x.shellN_encounter 0 = nE
  bd : ∀ j, j < nD → x.map_dominant 0 j < st.N
  bs : ∀ j, j < nS → x.map_subdominant 0 j < st.N
  be : ∀ j, j < nE → x.map_encounter 0 j < st.N

/-- A value divided by (positive) zero is an infinity or NaN, hence never in
the unit interval.  This is how the compiled code skips the interior
candidate when `dt = 0` or the relative velocity vanishes. -/
theorem divR_zero_not_unit (v : FVal) : ¬((v.divR 0).ge0 ∧ (v.divR 0).le1) := by
  cases v with
  | fin a =>
    simp only [FVal.divR, FVal.fdiv]
    norm_num
    split_ifs <;> simp [FVal.ge0, FVal.le1]
  | pinf => simp [FVal.divR, FVal.ge0, FVal.le1]
  | ninf => simp [FVal.divR, FVal.ge0]
  | nan => simp [FVal.divR, FVal.ge0]

/-- C7: the predictor never exceeds the two endpoint separations, and it
equals their minimum whenever the analytic closest-approach time lies
outside `[0, |∆t|]` (so the interior candidate is not used). -/
theorem predict_rmin2_le_min_endpoints (p1 p2 : Particle) (dt0 : ℝ) :
    reb_mercurana_predict_rmin2 p1 p2 dt0 ≤ min (sepSq p1 p2) (driftedSepSq p1 p2 dt0) ∧
    (dvSq p1 p2 dt0 ≠ 0 → tstar p1 p2 dt0 ∉ Set.Icc (0 : ℝ) |dt0| →
      reb_mercurana_predict_rmin2 p1 p2 dt0 = min (sepSq p1 p2) (driftedSepSq p1 p2 dt0)) := by
  unfold reb_mercurana_predict_rmin2 sepSq driftedSepSq
  simp only []
  constructor
  · split
    · exact min_le_left _ _
    · exact le_rfl
  · intro hdv hout
    rw [if_neg]
    intro hcond
    have hts : FVal.fdiv
        ((p1.x - p2.x) * (copysign1 dt0 * (p1.vx - p2.vx)) +
          (p1.y - p2.y) * (copysign1 dt0 * (p1.vy - p2.vy)) +
          (p1.z - p2.z) * (copysign1 dt0 * (p1.vz - p2.vz)))
        (copysign1 dt0 * (p1.vx - p2.vx) * (copysign1 dt0 * (p1.vx - p2.vx)) +
          copysign1 dt0 * (p1.vy - p2.vy) * (copysign1 dt0 * (p1.vy - p2.vy)) +
          copysign1 dt0 * (p1.vz - p2.vz) * (copysign1 dt0 * (p1.vz - p2.vz))) =
        FVal.fin (tstar p1 p2 dt0) := by
      unfold FVal.fdiv tstar dvSq
      simp only []
      rw [if_neg (by simpa [dvSq] using hdv)]
    rw [hts] at hcond
    rcases eq_or_lt_of_le (abs_nonneg dt0) with h0 | hpos
    · -- |dt0| = 0 : the ratio is `tstar / 0`, an infinity or NaN
      rw [← h0] at hcond
      exact divR_zero_not_unit _ hcond
    · -- |dt0| > 0 : the ratio is finite and the guard puts τ* in [0,|dt0|]
      simp only [FVal.divR, FVal.fdiv, if_neg (ne_of_gt hpos), FVal.ge0, FVal.le1] at hcond
      obtain ⟨hge, hle⟩ := hcond
      refine hout ⟨?_, ?_⟩
      · have := mul_nonneg hge (le_of_lt hpos)
        rwa [div_mul_cancel₀ _ (ne_of_gt hpos)] at this
      · exact (div_le_one hpos).mp hle

/-- C7 witness: an approaching pair whose closest-approach time is negative;
the predictor equals the minimum of the endpoint separations. -/
theorem predict_rmin2_le_min_endpoints_witness :
    dvSq { x := 1, vx := -1 } {} 1 ≠ 0 ∧ tstar { x := 1, vx := -1 } {} 1 ∉ Set.Icc (0 : ℝ) |1| ∧
    reb_mercurana_predict_rmin2 { x := 1, vx := -1 } {} 1 =
      min (sepSq { x := 1, vx := -1 } {}) (driftedSepSq { x := 1, vx := -1 } {} 1) := by
  have h1 : dvSq { x := 1, vx := -1 } {} 1 ≠ 0 := by
    norm_num [dvSq, copysign1]
  have h2 : tstar { x := 1, vx := -1 } {} 1 ∉ Set.Icc (0 : ℝ) |1| := by
    norm_num [tstar, dvSq, copysign1]
  exact ⟨h1, h2, (predict_rmin2_le_min_endpoints { x := 1, vx := -1 } {} 1).2 h1 h2⟩

/-- C8: with a zero drift interval the predictor returns exactly the current
squared separation; the internal divisions by `∆t` and `|∆v|²` produce IEEE
infinities or NaN, which make the interior-candidate guard false. -/
theorem predict_rmin2_zero_dt (p1 p2 : Particle) :
    reb_mercurana_predict_rmin2 p1 p2 0 = sepSq p1 p2 := by
  unfold reb_mercurana_predict_rmin2 sepSq
  simp only []
  rw [if_neg]
  · norm_num
  · rw [abs_zero]
    exact divR_zero_not_unit _

/-!  ## Concrete base state used by witnesses and counterexamples  -/

/-- C10: on an invalid configuration `part1` reports on the host error
channel and returns before the allocation block (the result does not depend
on `body`), and when nothing was allocated (`allocatedN < N`) a subsequent
`part2` returns immediately, leaving the state unchanged. -/
theorem part1_invalid_config_noop (st : SimState)
    (hinv : st.Nmaxshells = 0 ∨ (st.Nmaxshells = 1 ∧ st.n0 ≠ 0) ∨
      (st.Nmaxshells = 2 ∧ st.n1 ≠ 0) ∨ (1 < st.Nmaxshells ∧ st.kappa ≤ 0))
    (halloc : st.allocatedN < st.N) :
    (∀ body, ∃ msg, reb_integrator_mercurana_part1 body st = .error msg) ∧
    (∀ body, reb_integrator_mercurana_part2 body st = st) := by
  constructor
  · intro body
    unfold reb_integrator_mercurana_part1
    split_ifs with h1 h2 h3 h4
    · exact ⟨_, rfl⟩
    · exact ⟨_, rfl⟩
    · exact ⟨_, rfl⟩
    · exact ⟨_, rfl⟩
    · exact absurd hinv (by push_neg; tauto)
  · intro body
    unfold reb_integrator_mercurana_part2
    rw [if_pos halloc]

/-- C10 witness: `Nmaxshells = 0` with one particle and nothing allocated. -/
theorem part1_invalid_config_noop_witness :
    (({ baseState with Nmaxshells := 0, N := 1 } : SimState).Nmaxshells = 0 ∨
      (({ baseState with Nmaxshells := 0, N := 1 } : SimState).Nmaxshells = 1 ∧
        ({ baseState with Nmaxshells := 0, N := 1 } : SimState).n0 ≠ 0) ∨
      (({ baseState with Nmaxshells := 0, N := 1 } : SimState).Nmaxshells = 2 ∧
        ({ baseState with Nmaxshells := 0, N := 1 } : SimState).n1 ≠ 0) ∨
      (1 < ({ baseState with Nmaxshells := 0, N := 1 } : SimState).Nmaxshells ∧
        ({ baseState with Nmaxshells := 0, N := 1 } : SimState).kappa ≤ 0)) ∧
    ({ baseState with Nmaxshells := 0, N := 1 } : SimState).allocatedN <
      ({ baseState with Nmaxshells := 0, N := 1 } : SimState).N ∧
    (∀ body, ∃ msg,
      reb_integrator_mercurana_part1 body { baseState with Nmaxshells := 0, N := 1 } =
        .error msg) ∧
    (∀ body, reb_integrator_mercurana_part2 body { baseState with Nmaxshells := 0, N := 1 } =
      { baseState with Nmaxshells := 0, N := 1 }) := by
  refine ⟨Or.inl rfl, by norm_num [baseState], ?_⟩
  exact part1_invalid_config_noop _ (Or.inl rfl) (by norm_num [baseState])

/-!  ## C9: the switching function  -/

/-- `f 0` evaluates to `exp(-1/+0) = exp(-inf) = 0`. -/
theorem f_eval_zero : f 0 = FVal.fin 0 := by
  norm_num [f, FVal.fdiv, FVal.exp]

/-- `f x = exp(-1/x)` for `x > 0`. -/
theorem f_eval_pos {x : ℝ} (hx : 0 < x) : f x = FVal.fin (Real.exp (-1 / x)) := by
  unfold f FVal.fdiv
  rw [if_neg (not_lt.mpr hx.le), if_neg (ne_of_gt hx)]
  rfl

/-- C9 counterexample: at the inner edge `d = ri` (here `(d,ri,ro) = (0,0,1)`,
so `y = 0`) the derivative takes the `0 ≤ y ≤ 1` branch and evaluates
`dfdy(0) = exp(-inf)/0² = 0/0 = NaN`, not `0`. -/
theorem dLdr_infinity_nan_at_edge :
    reb_integrator_mercurana_dLdr_infinity 0 0 1 = FVal.nan ∧
    FVal.nan ≠ FVal.fin 0 := by
  constructor
  · norm_num [reb_integrator_mercurana_dLdr_infinity, dfdy, f, FVal.fdiv, FVal.exp,
      FVal.div, FVal.mul, FVal.sub, FVal.add, FVal.neg]
  · intro h
    cases h

/-- C9 (amended): with `ri < ro` and `y = (d-ri)/(ro-ri)`, the switching
function is `0` for `y ≤ 0`, `1` for `y ≥ 1`, equals
`f(y)/(f(y)+f(1-y))` with `f(y) = exp(-1/y)` strictly between, and in
particular `L(ri) = 0` and `L(ro) = 1`; the derivative is `0` strictly
outside the endpoints (`y < 0` or `y > 1`), while exactly at the endpoints
its formula evaluates to the indeterminate `0/0` (see the counterexample). -/
theorem L_infinity_amended (d ri ro : ℝ) (h : ri < ro) :
    ((d - ri) / (ro - ri) ≤ 0 → reb_integrator_mercurana_L_infinity d ri ro = FVal.fin 0) ∧
    (1 ≤ (d - ri) / (ro - ri) → reb_integrator_mercurana_L_infinity d ri ro = FVal.fin 1) ∧
    (0 < (d - ri) / (ro - ri) → (d - ri) / (ro - ri) < 1 →
      reb_integrator_mercurana_L_infinity d ri ro =
        FVal.fin (Real.exp (-1 / ((d - ri) / (ro - ri))) /
          (Real.exp (-1 / ((d - ri) / (ro - ri))) +
            Real.exp (-1 / (1 - (d - ri) / (ro - ri)))))) ∧
    reb_integrator_mercurana_L_infinity ri ri ro = FVal.fin 0 ∧
    reb_integrator_mercurana_L_infinity ro ri ro = FVal.fin 1 ∧
    ((d - ri) / (ro - ri) < 0 → reb_integrator_mercurana_dLdr_infinity d ri ro = FVal.fin 0) ∧
    (1 < (d - ri) / (ro - ri) → reb_integrator_mercurana_dLdr_infinity d ri ro = FVal.fin 0) := by
  have hro : ro - ri ≠ 0 := ne_of_gt (by linarith)
  have hL0 : ∀ e : ℝ, (e - ri) / (ro - ri) = 0 →
      reb_integrator_mercurana_L_infinity e ri ro = FVal.fin 0 := by
    intro e hy
    unfold reb_integrator_mercurana_L_infinity
    simp only []
    rw [hy, if_neg (lt_irrefl 0), if_neg (by norm_num), f_eval_zero]
    norm_num [f_eval_pos one_pos, FVal.add, FVal.div, FVal.fdiv, ne_of_gt (Real.exp_pos (-1/1))]
  have hL1 : ∀ e : ℝ, (e - ri) / (ro - ri) = 1 →
      reb_integrator_mercurana_L_infinity e ri ro = FVal.fin 1 := by
    intro e hy
    unfold reb_integrator_mercurana_L_infinity
    simp only []
    rw [hy, if_neg (by norm_num), if_neg (lt_irrefl 1), f_eval_pos one_pos]
    norm_num [f_eval_zero, FVal.add, FVal.div, FVal.fdiv, ne_of_gt (Real.exp_pos (-1/1))]
  refine ⟨?_, ?_, ?_, ?_, ?_, ?_, ?_⟩
  · intro hy
    rcases lt_or_eq_of_le hy with hy | hy
    · unfold reb_integrator_mercurana_L_infinity
      simp only []
      rw [if_pos hy]
    · exact hL0 d hy
  · intro hy
    rcases lt_or_eq_of_le hy with hy | hy
    · unfold reb_integrator_mercurana_L_infinity
      simp only []
      rw [if_neg (by linarith), if_pos hy]
    · exact hL1 d hy.symm
  · intro hy0 hy1
    unfold reb_integrator_mercurana_L_infinity
    simp only []
    rw [if_neg (by linarith), if_neg (by linarith), f_eval_pos hy0, f_eval_pos (by linarith)]
    have hsum : Real.exp (-1 / ((d - ri) / (ro - ri))) +
        Real.exp (-1 / (1 - (d - ri) / (ro - ri))) ≠ 0 :=
      ne_of_gt (by positivity)
    simp [FVal.add, FVal.div, FVal.fdiv, hsum]
  · exact hL0 ri (by simp)
  · exact hL1 ro (by rw [div_self hro])
  · intro hy
    unfold reb_integrator_mercurana_dLdr_infinity
    simp only []
    rw [if_pos hy]
  · intro hy
    unfold reb_integrator_mercurana_dLdr_infinity
    simp only []
    rw [if_neg (by linarith), if_pos hy]

/-- C9 witness: the amended claim instantiated at `(d, ri, ro) = (2, 0, 1)`. -/
theorem L_infinity_amended_witness :
    (0 : ℝ) < 1 ∧
    (((2 : ℝ) - 0) / (1 - 0) ≤ 0 →
      reb_integrator_mercurana_L_infinity 2 0 1 = FVal.fin 0) ∧
    (1 ≤ ((2 : ℝ) - 0) / (1 - 0) →
      reb_integrator_mercurana_L_infinity 2 0 1 = FVal.fin 1) ∧
    (0 < ((2 : ℝ) - 0) / (1 - 0) → ((2 : ℝ) - 0) / (1 - 0) < 1 →
      reb_integrator_mercurana_L_infinity 2 0 1 =
        FVal.fin (Real.exp (-1 / (((2 : ℝ) - 0) / (1 - 0))) /
          (Real.exp (-1 / (((2 : ℝ) - 0) / (1 - 0))) +
            Real.exp (-1 / (1 - ((2 : ℝ) - 0) / (1 - 0)))))) ∧
    reb_integrator_mercurana_L_infinity 0 0 1 = FVal.fin 0 ∧
    reb_integrator_mercurana_L_infinity 1 0 1 = FVal.fin 1 ∧
    (((2 : ℝ) - 0) / (1 - 0) < 0 →
      reb_integrator_mercurana_dLdr_infinity 2 0 1 = FVal.fin 0) ∧
    (1 < ((2 : ℝ) - 0) / (1 - 0) →
      reb_integrator_mercurana_dLdr_infinity 2 0 1 = FVal.fin 0) :=
  ⟨by norm_num, L_infinity_amended 2 0 1 (by norm_num)⟩

/-!  ## C2: behaviour at the deepest shell  -/

/-- C2 counterexample: at the deepest shell (`s + 1 ≥ Smax`) the predictor
returns immediately: although the pair overlaps (`rmin² < (r_i+r_j)²`) and
the collision mode is DIRECT, no collision is recorded — the whole state is
returned unchanged.  By contrast, the same state with one more shell does
record the pair in its scan phase. -/
theorem predict_deepest_shell_skips_collision :
    cexC2.collision = CollMode.collDirect ∧
    reb_mercurana_predict_rmin2 (cexC2.particles 0) (cexC2.particles 1) 1 <
      ((cexC2.particles 0).r + (cexC2.particles 1).r) *
        ((cexC2.particles 0).r + (cexC2.particles 1).r) ∧
    reb_mercurana_encounter_predict 1 id cexC2 1 0 = cexC2 ∧
    (reb_mercurana_encounter_predict 1 id cexC2 1 0).collisions = [] ∧
    (encounterPredictBody { cexC2 with Nmaxshells := 2 } 1 0).collisions ≠ [] := by
  refine ⟨rfl, ?_, ?_, ?_, ?_⟩
  · norm_num [cexC2, baseState, reb_mercurana_predict_rmin2, copysign1, FVal.divR,
      FVal.fdiv, FVal.ge0, FVal.le1, FVal.toReal]
  · unfold reb_mercurana_encounter_predict
    rw [if_pos (by norm_num [cexC2, baseState])]
  · unfold reb_mercurana_encounter_predict
    rw [if_pos (by norm_num [cexC2, baseState])]
    rfl
  · norm_num only [encounterPredictBody, cexC2, baseState, bootstrapShell0, upd1, upd2,
      domdomPass, domsubPass, encencPass, domdomOuter, domsubOuter, encencOuter,
      domdomInner, domsubInner, encencInner, predictReset,
      reb_mercurana_record_collision, reb_mercurana_predict_rmin2, copysign1,
      promoteDominant, promoteSubdominant, promoteEncounter, appendEncounter,
      minMaxdriftDominant, minMaxdriftEncounter, driftParticle,
      FVal.divR, FVal.fdiv, FVal.ge0, FVal.le1, FVal.toReal,
      List.range_succ, List.foldl]
    simp
    norm_num [upd1, upd2, promoteEncounter, reb_mercurana_record_collision,
      minMaxdriftEncounter]

/-- C2 (amended): when `shell + 1 ≥ Nmaxshells` the predictor returns
immediately without running any of the three pair scans, so nothing is
recorded at the deepest shell; the scans (and DIRECT-mode collision
recording) happen only when `shell + 1 < Nmaxshells`. -/
theorem predict_deepest_shell_noop (fuel : ℕ) (cs : SimState → SimState) (st : SimState)
    (dt : ℝ) (shell : ℕ) (h : shell + 1 ≥ st.Nmaxshells) :
    reb_mercurana_encounter_predict (fuel + 1) cs st dt shell = st := by
  unfold reb_mercurana_encounter_predict
  rw [if_pos h]

/-- C2 witness: the amended claim at the deepest shell of a one-shell
configuration. -/
theorem predict_deepest_shell_noop_witness :
    0 + 1 ≥ cexC2.Nmaxshells ∧
    reb_mercurana_encounter_predict (0 + 1) id cexC2 1 0 = cexC2 :=
  ⟨by norm_num [cexC2, baseState],
   predict_deepest_shell_noop 0 id cexC2 1 0 (by norm_num [cexC2, baseState])⟩

/-!  ## C6: mutual exclusivity of the drift advance conditions  -/

/-- C6: within one `drift_step`, a particle appearing in more than one of
the three shell-`s` role maps is advanced at most once: under the map
discipline the code maintains (the dominant map is disjoint from the other
two; only subdominant∩encounter overlaps occur), at most one of the three
advance events — membership in the role map together with that role's
advance guard — can hold.  The subdominant and encounter guards are mutually
exclusive outright (they read `inshell_dominant[i] = s` resp.
`inshell_dominant[i] < s` through the aliased pointer). -/
theorem drift_advance_at_most_once (st : SimState) (shell i : ℕ)
    (hds : ∀ j, j ∈ mapListDominant st shell → j ∉ mapListSubdominant st shell)
    (hde : ∀ j, j ∈ mapListDominant st shell → j ∉ mapListEncounter st shell) :
    ¬((i ∈ mapListDominant st shell ∧ driftCondDominant st shell i) ∧
      (i ∈ mapListSubdominant st shell ∧ driftCondSubdominant st shell i)) ∧
    ¬((i ∈ mapListDominant st shell ∧ driftCondDominant st shell i) ∧
      (i ∈ mapListEncounter st shell ∧ driftCondEncounter st shell i)) ∧
    ¬((i ∈ mapListSubdominant st shell ∧ driftCondSubdominant st shell i) ∧
      (i ∈ mapListEncounter st shell ∧ driftCondEncounter st shell i)) := by
  refine ⟨?_, ?_, ?_⟩
  · rintro ⟨⟨hd, -⟩, hs, -⟩
    exact hds i hd hs
  · rintro ⟨⟨hd, -⟩, he, -⟩
    exact hde i hd he
  · rintro ⟨⟨-, hcs⟩, -, hce⟩
    exact lt_irrefl shell (hcs.1 ▸ hce.1)

/-- C6 witness: the exclusivity applied to particle 1 of `wstC6`, which is in
both the subdominant and the encounter map of shell 1. -/
theorem drift_advance_at_most_once_witness :
    (∀ j, j ∈ mapListDominant wstC6 1 → j ∉ mapListSubdominant wstC6 1) ∧
    (∀ j, j ∈ mapListDominant wstC6 1 → j ∉ mapListEncounter wstC6 1) ∧
    (1 ∈ mapListSubdominant wstC6 1 ∧ 1 ∈ mapListEncounter wstC6 1) ∧
    (¬((1 ∈ mapListDominant wstC6 1 ∧ driftCondDominant wstC6 1 1) ∧
        (1 ∈ mapListSubdominant wstC6 1 ∧ driftCondSubdominant wstC6 1 1)) ∧
      ¬((1 ∈ mapListDominant wstC6 1 ∧ driftCondDominant wstC6 1 1) ∧
        (1 ∈ mapListEncounter wstC6 1 ∧ driftCondEncounter wstC6 1 1)) ∧
      ¬((1 ∈ mapListSubdominant wstC6 1 ∧ driftCondSubdominant wstC6 1 1) ∧
        (1 ∈ mapListEncounter wstC6 1 ∧ driftCondEncounter wstC6 1 1))) := by
  have h1 : ∀ j, j ∈ mapListDominant wstC6 1 → j ∉ mapListSubdominant wstC6 1 := by
    intro j hj
    simp [mapListDominant, mapListSubdominant, wstC6, baseState, List.range_succ] at hj ⊢
    omega
  have h2 : ∀ j, j ∈ mapListDominant wstC6 1 → j ∉ mapListEncounter wstC6 1 := by
    intro j hj
    simp [mapListDominant, mapListEncounter, wstC6, baseState, List.range_succ] at hj ⊢
    omega
  refine ⟨h1, h2, ⟨?_, ?_⟩, drift_advance_at_most_once wstC6 1 1 h1 h2⟩
  · simp [mapListSubdominant, wstC6, baseState, List.range_succ]
  · simp [mapListEncounter, wstC6, baseState, List.range_succ]

/-!  ## C3: the Dom–Sub promotion writes the aliased `inshell` array  -/

/-- C3 failing input: the Dom–Sub pass promotes subdominant particle 1 into
`map_subdominant[1]`, but because the source aliases `inshell_subdominant`
to `inshell_dominant` (line 170), it sets `inshell_dominant[1] = 1` and
leaves the real `inshell_subdominant[1]` untouched (still 99) — the claim
says `inshell_subdominant[1]` becomes 1 and `inshell_dominant[1]` stays
unchanged (it was reset to 0 by the bootstrap). -/
theorem domsub_promotion_aliased_inshell :
    (reb_mercurana_encounter_predict 1 id cexC3 1 0).inshell_dominant 1 = 1 ∧
    (reb_mercurana_encounter_predict 1 id cexC3 1 0).inshell_subdominant 1 = 99 ∧
    mapListSubdominant (reb_mercurana_encounter_predict 1 id cexC3 1 0) 1 = [1] ∧
    mapListDominant (reb_mercurana_encounter_predict 1 id cexC3 1 0) 1 = [0] := by
  norm_num only [reb_mercurana_encounter_predict, encounterPredictBody, cexC3, baseState,
      bootstrapShell0, upd1, upd2, mapListSubdominant, mapListDominant,
      domdomPass, domsubPass, encencPass, domdomOuter, domsubOuter, encencOuter,
      domdomInner, domsubInner, encencInner, predictReset,
      reb_mercurana_record_collision, reb_mercurana_predict_rmin2, copysign1,
      promoteDominant, promoteSubdominant, promoteEncounter, appendEncounter,
      minMaxdriftDominant, minMaxdriftEncounter, driftParticle,
      FVal.divR, FVal.fdiv, FVal.ge0, FVal.le1, FVal.toReal,
      List.range_succ, List.foldl]
  simp
  norm_num [upd1, upd2, promoteDominant, promoteSubdominant,
      reb_mercurana_record_collision, minMaxdriftDominant, minMaxdriftEncounter,
      mapListSubdominant, mapListDominant, List.range_succ]

/-!  ## C4: the max-drift rescan reads the wrong map  -/

/-- C4 failing input: particle 0 violates its max-drift bound
(displacement 5 > 1), and per the claim the rescan should visit every
shell-0 encounter particle — in particular particle 1, which satisfies the
promotion condition (`rmin² = 1 < (10+10)²`, `inshell_encounter[1] = 0 < 1`).
But the loop reads `map_encounter[shell]` (stale backing, all slots 0)
instead of `map_encounter[0]` (source line 231 vs. the bound of line 230),
so particle 1 is never examined and never promoted. -/
theorem maxdrift_rescan_misses_shell0_particle :
    Real.sqrt
      (((cexC4.particles 0).x - (cexC4.p0 0).x) * ((cexC4.particles 0).x - (cexC4.p0 0).x) +
        ((cexC4.particles 0).y - (cexC4.p0 0).y) * ((cexC4.particles 0).y - (cexC4.p0 0).y) +
        ((cexC4.particles 0).z - (cexC4.p0 0).z) * ((cexC4.particles 0).z - (cexC4.p0 0).z)) >
      cexC4.maxdrift_encounter 0 ∧
    1 ∈ mapListEncounter cexC4 0 ∧
    cexC4.inshell_encounter 1 < 1 ∧
    reb_mercurana_predict_rmin2_drifted (cexC4.particles 0) (cexC4.particles 1) 1
        (cexC4.t_drifted 0 - cexC4.t_drifted 1) <
      (cexC4.dcrit 1 0 + cexC4.dcrit 1 1) * (cexC4.dcrit 1 0 + cexC4.dcrit 1 1) ∧
    1 ∉ mapListEncounter (reb_mercurana_encounter_predict 1 id cexC4 1 1) 1 ∧
    (reb_mercurana_encounter_predict 1 id cexC4 1 1).shellN_encounter 1 = 1 ∧
    (reb_mercurana_encounter_predict 1 id cexC4 1 1).inshell_encounter 1 = 0 := by
  have h25 : Real.sqrt 25 = 5 := by
    rw [show (25 : ℝ) = 5 ^ 2 by norm_num, Real.sqrt_sq (by norm_num : (0:ℝ) ≤ 5)]
  refine ⟨?_, ?_, ?_, ?_, ?_⟩
  · norm_num [cexC4, baseState, h25]
  · simp [mapListEncounter, cexC4, baseState, List.range_succ]
  · norm_num [cexC4, baseState]
  · norm_num [cexC4, baseState, reb_mercurana_predict_rmin2_drifted,
      reb_mercurana_predict_rmin2, copysign1, FVal.divR, FVal.fdiv, FVal.ge0, FVal.le1,
      FVal.toReal]
  · norm_num only [reb_mercurana_encounter_predict, encounterPredictBody, cexC4, baseState,
      maxdriftPhase, maxdriftOuter, maxdriftInner, upd1, upd2, mapListEncounter,
      domdomPass, domsubPass, encencPass, domdomOuter, domsubOuter, encencOuter,
      domdomInner, domsubInner, encencInner, predictReset,
      reb_mercurana_record_collision, reb_mercurana_predict_rmin2,
      reb_mercurana_predict_rmin2_drifted, copysign1,
      promoteDominant, promoteSubdominant, promoteEncounter, appendEncounter,
      minMaxdriftDominant, minMaxdriftEncounter, driftParticle,
      FVal.divR, FVal.fdiv, FVal.ge0, FVal.le1, FVal.toReal, h25,
      List.range_succ, List.range', List.foldl]
    simp [h25]
    norm_num [upd1, upd2, mapListEncounter, List.range_succ, h25]

/-!  ## C5: the shell maps need not stay nested  -/

/-- C5 failing input: the max-drift rescan of `predict(1, 1)` reads the
stale slot 1 of `map_encounter[1]` (the dominant index 0, which is not a
shell-0 encounter particle), finds it close to particle 1, and appends it to
`map_encounter[1]` — after the call `map_encounter[1] = [1,0]` is not a
subset of `map_encounter[0] = [1,2]`, so the shell maps are not nested. -/
theorem predict_breaks_nesting :
    0 ∈ mapListEncounter (reb_mercurana_encounter_predict 1 id cexC5 1 1) 1 ∧
    0 ∉ mapListEncounter (reb_mercurana_encounter_predict 1 id cexC5 1 1) 0 ∧
    mapListEncounter (reb_mercurana_encounter_predict 1 id cexC5 1 1) 1 = [1, 0] ∧
    mapListEncounter (reb_mercurana_encounter_predict 1 id cexC5 1 1) 0 = [1, 2] := by
  norm_num only [reb_mercurana_encounter_predict, encounterPredictBody, cexC5, baseState,
      maxdriftPhase, maxdriftOuter, maxdriftInner, upd1, upd2, mapListEncounter,
      domdomPass, domsubPass, encencPass, domdomOuter, domsubOuter, encencOuter,
      domdomInner, domsubInner, encencInner, predictReset,
      reb_mercurana_record_collision, reb_mercurana_predict_rmin2,
      reb_mercurana_predict_rmin2_drifted, copysign1,
      promoteDominant, promoteSubdominant, promoteEncounter, appendEncounter,
      minMaxdriftDominant, minMaxdriftEncounter, driftParticle,
      FVal.divR, FVal.fdiv, FVal.ge0, FVal.le1, FVal.toReal, Real.sqrt_one,
      List.range_succ, List.range', List.foldl]
  simp [Real.sqrt_one]
  norm_num [upd1, upd2, mapListEncounter, List.range_succ]
  decide

/-!  ## C1: predict is not idempotent at shells `s > 0`  -/

/-- The Dom–Dom pass over an empty dominant map is the identity. -/
theorem domdomPass_zero (dt : ℝ) (shell : ℕ) (st : SimState) :
    domdomPass dt shell 0 st = st := by
  simp [domdomPass]

/-- The Dom–Sub pass over an empty dominant map is the identity. -/
theorem domsubPass_zero (dt : ℝ) (shell sNs : ℕ) (st : SimState) :
    domsubPass dt shell 0 sNs st = st := by
  simp [domsubPass]

/-- On `cexC1` (no particle has moved since `p0`), the max-drift phase does
nothing. -/
theorem maxdriftPhase_cexC1 : maxdriftPhase 1 1 2 cexC1r = cexC1r := by
  have h0 : maxdriftOuter 1 1 cexC1r 0 = cexC1r := by
    unfold maxdriftOuter
    simp only []
    rw [if_neg]
    norm_num [cexC1r, predictReset, cexC1, baseState, upd1, Real.sqrt_zero]
  have h1 : maxdriftOuter 1 1 cexC1r 1 = cexC1r := by
    unfold maxdriftOuter
    simp only []
    rw [if_neg]
    norm_num [cexC1r, predictReset, cexC1, baseState, upd1, Real.sqrt_zero]
  show (List.range 2).foldl (maxdriftOuter 1 1) cexC1r = cexC1r
  rw [show List.range 2 = [0, 1] by rfl]
  rw [List.foldl_cons, h0, List.foldl_cons, h1, List.foldl_nil]

/-- The Enc–Enc pass on `cexC1r` promotes particles 0 and 1 into shell 2. -/
theorem encencPass_cexC1 : encencPass 1 1 2 cexC1r = stC1 := by
  have hrm : reb_mercurana_predict_rmin2 (cexC1r.particles 0) (cexC1r.particles 1) 1 = 1 := by
    norm_num [cexC1r, predictReset, cexC1, baseState, reb_mercurana_predict_rmin2, copysign1,
      FVal.divR, FVal.fdiv, FVal.ge0, FVal.le1, FVal.toReal]
  have hmap0 : cexC1r.map_encounter 1 0 = 0 := by norm_num [cexC1r, predictReset, cexC1, baseState]
  have hmap1 : cexC1r.map_encounter 1 1 = 1 := by norm_num [cexC1r, predictReset, cexC1, baseState]
  have hno : ¬(reb_mercurana_predict_rmin2 (cexC1r.particles 0) (cexC1r.particles 1) 1 <
      ((cexC1r.particles 0).r + (cexC1r.particles 1).r) *
        ((cexC1r.particles 0).r + (cexC1r.particles 1).r) ∧
      cexC1r.collision = CollMode.collDirect) := by
    rw [hrm]
    norm_num [cexC1r, predictReset, cexC1, baseState]
  have hyes : reb_mercurana_predict_rmin2 (cexC1r.particles 0) (cexC1r.particles 1) 1 <
      (cexC1r.dcrit 1 0 + cexC1r.dcrit 1 1) * (cexC1r.dcrit 1 0 + cexC1r.dcrit 1 1) := by
    rw [hrm]
    norm_num [cexC1r, predictReset, cexC1, baseState]
  have hg0 : cexC1r.inshell_encounter 0 = 1 := by norm_num [cexC1r, predictReset, cexC1, baseState]
  have hg1 : (promoteEncounter cexC1r 1 0).inshell_encounter 1 = 1 := by
    norm_num [promoteEncounter, cexC1r, predictReset, cexC1, baseState, upd1]
  have hinner : encencInner 1 1 0 cexC1r 1 = stC1 := by
    unfold encencInner
    simp only []
    rw [hmap1, if_neg hno, if_pos hyes, if_pos hg0, if_pos hg1]
    rfl
  unfold encencPass
  rw [show List.range 2 = [0, 1] from rfl]
  simp only [List.foldl_cons, List.foldl_nil, encencOuter]
  rw [hmap0]
  rw [show List.range' (0 + 1) (2 - (0 + 1)) = [1] from rfl]
  simp only [List.foldl_cons, List.foldl_nil]
  rw [hinner]
  rw [show List.range' (1 + 1) (2 - (1 + 1)) = ([] : List ℕ) from rfl]
  simp only [List.foldl_nil]

/-- The first `predict(1, 1)` on `cexC1` yields `stC1`. -/
theorem predict_cexC1_eval : reb_mercurana_encounter_predict 1 id cexC1 1 1 = stC1 := by
  have hb : encounterPredictBody cexC1 1 1 = stC1 := by
    calc encounterPredictBody cexC1 1 1
        = encencPass 1 1 2 (domsubPass 1 1 0 0 (domdomPass 1 1 0 (maxdriftPhase 1 1 2 cexC1r))) := rfl
      _ = stC1 := by rw [maxdriftPhase_cexC1, domdomPass_zero, domsubPass_zero, encencPass_cexC1]
  unfold reb_mercurana_encounter_predict
  rw [if_neg (by norm_num [cexC1, baseState])]
  simp only [hb]
  rw [if_pos (show stC1.collisions = [] from rfl)]

set_option maxHeartbeats 1000000 in
/-- C1 counterexample: the first `predict(1, 1)` promotes both encounter
particles into shell 2 (and sets `inshell_encounter = 2`); calling
`predict(1, 1)` again on the result, with no intervening mutation, finds the
promotion guard `inshell_encounter[i] == shell` false and rebuilds shell 2
empty — the shell memberships after the two calls differ. -/
theorem predict_not_idempotent_above_shell0 :
    (reb_mercurana_encounter_predict 1 id cexC1 1 1).shellN_encounter 2 = 2 ∧
    mapListEncounter (reb_mercurana_encounter_predict 1 id cexC1 1 1) 2 = [0, 1] ∧
    (reb_mercurana_encounter_predict 1 id
        (reb_mercurana_encounter_predict 1 id cexC1 1 1) 1 1).shellN_encounter 2 = 0 ∧
    mapListEncounter (reb_mercurana_encounter_predict 1 id
        (reb_mercurana_encounter_predict 1 id cexC1 1 1) 1 1) 2 = [] ∧
    ¬ mapsEq (reb_mercurana_encounter_predict 1 id
          (reb_mercurana_encounter_predict 1 id cexC1 1 1) 1 1)
        (reb_mercurana_encounter_predict 1 id cexC1 1 1) := by
  rw [predict_cexC1_eval]
  have hmain :
      stC1.shellN_encounter 2 = 2 ∧
      mapListEncounter stC1 2 = [0, 1] ∧
      (reb_mercurana_encounter_predict 1 id stC1 1 1).shellN_encounter 2 = 0 ∧
      mapListEncounter (reb_mercurana_encounter_predict 1 id stC1 1 1) 2 = [] := by
    norm_num only [reb_mercurana_encounter_predict, encounterPredictBody, stC1, cexC1r,
        cexC1, baseState,
        maxdriftPhase, maxdriftOuter, maxdriftInner, upd1, upd2, mapListEncounter,
        domdomPass, domsubPass, encencPass, domdomOuter, domsubOuter, encencOuter,
      domdomInner, domsubInner, encencInner, predictReset,
        reb_mercurana_record_collision, reb_mercurana_predict_rmin2,
        reb_mercurana_predict_rmin2_drifted, copysign1,
        promoteDominant, promoteSubdominant, promoteEncounter, appendEncounter,
        minMaxdriftDominant, minMaxdriftEncounter, driftParticle,
        FVal.divR, FVal.fdiv, FVal.ge0, FVal.le1, FVal.toReal, Real.sqrt_zero,
        List.range_succ, List.range', List.foldl]
    simp [Real.sqrt_zero]
    norm_num [upd1, upd2, mapListEncounter, List.range_succ]
  refine ⟨hmain.1, hmain.2.1, hmain.2.2.1, hmain.2.2.2, fun hEq => ?_⟩
  have := hEq.2.2.1 2
  rw [hmain.2.2.1, hmain.1] at this
  exact absurd this (by norm_num)

/-- A fold preserves a binary relation whose steps do. -/
theorem foldl_rel {α : Type} (R : SimState → SimState → Prop) (f : SimState → α → SimState) :
    ∀ l : List α, (∀ x, x ∈ l → ∀ a b, R a b → R (f a x) (f b x)) →
      ∀ a b, R a b → R (l.foldl f a) (l.foldl f b) := by
  intro l
  induction l with
  | nil => intro _ a b h; exact h
  | cons x xs ih =>
    intro hstep a b h
    simp only [List.foldl_cons]
    exact ih (fun y hy => hstep y (List.mem_cons_of_mem _ hy)) _ _
      (hstep x (List.mem_cons_self _ _) a b h)

/-- A fold preserves a predicate whose steps do. -/
theorem foldl_pres {α : Type} (P : SimState → Prop) (f : SimState → α → SimState) :
    ∀ l : List α, (∀ x, x ∈ l → ∀ st, P st → P (f st x)) →
      ∀ st, P st → P (l.foldl f st) := by
  intro l
  induction l with
  | nil => intro _ st h; exact h
  | cons x xs ih =>
    intro hstep st h
    simp only [List.foldl_cons]
    exact ih (fun y hy => hstep y (List.mem_cons_of_mem _ hy)) _
      (hstep x (List.mem_cons_self _ _) st h)

theorem record_collision_inshell_dominant (st : SimState) (i j : ℕ) :
    (reb_mercurana_record_collision st i j).inshell_dominant = st.inshell_dominant := rfl

theorem record_collision_inshell_encounter (st : SimState) (i j : ℕ) :
    (reb_mercurana_record_collision st i j).inshell_encounter = st.inshell_encounter := rfl

theorem promoteDominant_inshell_dominant (st : SimState) (s m : ℕ) :
    (promoteDominant st s m).inshell_dominant = upd1 st.inshell_dominant m (s + 1) := rfl

theorem promoteEncounter_inshell_encounter (st : SimState) (s m : ℕ) :
    (promoteEncounter st s m).inshell_encounter = upd1 st.inshell_encounter m (s + 1) := rfl

theorem record_collision_predInv {nD nS nE : ℕ} {a b : SimState}
    (h : PredInv nD nS nE a b) (i j : ℕ) :
    PredInv nD nS nE (reb_mercurana_record_collision a i j)
      (reb_mercurana_record_collision b i j) :=
  ⟨h.hN, h.hpart, h.hdcrit, h.hcoll, h.hinsd, h.hinse, h.hmdd, h.hmde, h.hsd, h.hss, h.hse,
   h.hmapd, h.hmaps, h.hmape, h.hnD, h.hnS, h.hnE⟩

theorem minMaxdriftDominant_predInv {nD nS nE : ℕ} {a b : SimState}
    (h : PredInv nD nS nE a b) (k : ℕ) (md : ℝ) :
    PredInv nD nS nE (minMaxdriftDominant a k md) (minMaxdriftDominant b k md) :=
  ⟨h.hN, h.hpart, h.hdcrit, h.hcoll, h.hinsd, h.hinse, by
      show upd1 a.maxdrift_dominant k (min (a.maxdrift_dominant k) md) = _
      rw [h.hmdd]
      rfl, h.hmde, h.hsd, h.hss, h.hse,
   h.hmapd, h.hmaps, h.hmape, h.hnD, h.hnS, h.hnE⟩

theorem minMaxdriftEncounter_predInv {nD nS nE : ℕ} {a b : SimState}
    (h : PredInv nD nS nE a b) (k : ℕ) (md : ℝ) :
    PredInv nD nS nE (minMaxdriftEncounter a k md) (minMaxdriftEncounter b k md) :=
  ⟨h.hN, h.hpart, h.hdcrit, h.hcoll, h.hinsd, h.hinse, h.hmdd, by
      show upd1 a.maxdrift_encounter k (min (a.maxdrift_encounter k) md) = _
      rw [h.hmde]
      rfl, h.hsd, h.hss, h.hse,
   h.hmapd, h.hmaps, h.hmape, h.hnD, h.hnS, h.hnE⟩

theorem promoteDominant_predInv {nD nS nE : ℕ} {a b : SimState}
    (h : PredInv nD nS nE a b) (mi : ℕ) :
    PredInv nD nS nE (promoteDominant a 0 mi) (promoteDominant b 0 mi) := by
  refine ⟨h.hN, h.hpart, h.hdcrit, h.hcoll, ?_, h.hinse, h.hmdd, h.hmde, ?_, h.hss, h.hse,
    ?_, h.hmaps, h.hmape, ?_, h.hnS, h.hnE⟩
  · show upd1 a.inshell_dominant mi (0 + 1) = upd1 b.inshell_dominant mi (0 + 1)
    rw [h.hinsd]
  · show upd1 a.shellN_dominant (0 + 1) (a.shellN_dominant (0 + 1) + 1) = _
    rw [h.hsd]
    rfl
  · intro s j hj
    have hcnt : a.shellN_dominant 1 = b.shellN_dominant 1 := congrFun h.hsd 1
    show upd2 a.map_dominant (0 + 1) (a.shellN_dominant (0 + 1)) mi s j =
      upd2 b.map_dominant (0 + 1) (b.shellN_dominant (0 + 1)) mi s j
    have hj' : j < upd1 a.shellN_dominant (0 + 1) (a.shellN_dominant (0 + 1) + 1) s := hj
    simp only [upd1, upd2] at hj' ⊢
    by_cases hs : s = 0 + 1
    · rw [if_pos hs] at hj'
      by_cases hje : j = a.shellN_dominant (0 + 1)
      · rw [if_pos ⟨hs, hje⟩, if_pos ⟨hs, by rw [← hcnt]; exact hje⟩]
      · rw [if_neg (by tauto), if_neg (fun hx => hje (by rw [hcnt]; exact hx.2))]
        subst hs
        exact h.hmapd (0 + 1) j (by omega)
    · rw [if_neg hs] at hj'
      rw [if_neg (by tauto), if_neg (by tauto)]
      exact h.hmapd s j hj'
  · show upd1 a.shellN_dominant (0 + 1) (a.shellN_dominant (0 + 1) + 1) 0 = nD
    simp only [upd1]
    rw [if_neg (by omega)]
    exact h.hnD

theorem promoteSubdominant_predInv {nD nS nE : ℕ} {a b : SimState}
    (h : PredInv nD nS nE a b) (mj : ℕ) :
    PredInv nD nS nE (promoteSubdominant a 0 mj) (promoteSubdominant b 0 mj) := by
  refine ⟨h.hN, h.hpart, h.hdcrit, h.hcoll, ?_, h.hinse, h.hmdd, h.hmde, h.hsd, ?_, h.hse,
    h.hmapd, ?_, h.hmape, h.hnD, ?_, h.hnE⟩
  · show upd1 a.inshell_dominant mj (0 + 1) = upd1 b.inshell_dominant mj (0 + 1)
    rw [h.hinsd]
  · show upd1 a.shellN_subdominant (0 + 1) (a.shellN_subdominant (0 + 1) + 1) = _
    rw [h.hss]
    rfl
  · intro s j hj
    have hcnt : a.shellN_subdominant 1 = b.shellN_subdominant 1 := congrFun h.hss 1
    show upd2 a.map_subdominant (0 + 1) (a.shellN_subdominant (0 + 1)) mj s j =
      upd2 b.map_subdominant (0 + 1) (b.shellN_subdominant (0 + 1)) mj s j
    have hj' : j < upd1 a.shellN_subdominant (0 + 1) (a.shellN_subdominant (0 + 1) + 1) s := hj
    simp only [upd1, upd2] at hj' ⊢
    by_cases hs : s = 0 + 1
    · rw [if_pos hs] at hj'
      by_cases hje : j = a.shellN_subdominant (0 + 1)
      · rw [if_pos ⟨hs, hje⟩, if_pos ⟨hs, by rw [← hcnt]; exact hje⟩]
      · rw [if_neg (by tauto), if_neg (fun hx => hje (by rw [hcnt]; exact hx.2))]
        subst hs
        exact h.hmaps (0 + 1) j (by omega)
    · rw [if_neg hs] at hj'
      rw [if_neg (by tauto), if_neg (by tauto)]
      exact h.hmaps s j hj'
  · show upd1 a.shellN_subdominant (0 + 1) (a.shellN_subdominant (0 + 1) + 1) 0 = nS
    simp only [upd1]
    rw [if_neg (by omega)]
    exact h.hnS

theorem promoteEncounter_predInv {nD nS nE : ℕ} {a b : SimState}
    (h : PredInv nD nS nE a b) (mi : ℕ) :
    PredInv nD nS nE (promoteEncounter a 0 mi) (promoteEncounter b 0 mi) := by
  refine ⟨h.hN, h.hpart, h.hdcrit, h.hcoll, h.hinsd, ?_, h.hmdd, h.hmde, h.hsd, h.hss, ?_,
    h.hmapd, h.hmaps, ?_, h.hnD, h.hnS, ?_⟩
  · show upd1 a.inshell_encounter mi (0 + 1) = upd1 b.inshell_encounter mi (0 + 1)
    rw [h.hinse]
  · show upd1 a.shellN_encounter (0 + 1) (a.shellN_encounter (0 + 1) + 1) = _
    rw [h.hse]
    rfl
  · intro s j hj
    have hcnt : a.shellN_encounter 1 = b.shellN_encounter 1 := congrFun h.hse 1
    show upd2 a.map_encounter (0 + 1) (a.shellN_encounter (0 + 1)) mi s j =
      upd2 b.map_encounter (0 + 1) (b.shellN_encounter (0 + 1)) mi s j
    have hj' : j < upd1 a.shellN_encounter (0 + 1) (a.shellN_encounter (0 + 1) + 1) s := hj
    simp only [upd1, upd2] at hj' ⊢
    by_cases hs : s = 0 + 1
    · rw [if_pos hs] at hj'
      by_cases hje : j = a.shellN_encounter (0 + 1)
      · rw [if_pos ⟨hs, hje⟩, if_pos ⟨hs, by rw [← hcnt]; exact hje⟩]
      · rw [if_neg (by tauto), if_neg (fun hx => hje (by rw [hcnt]; exact hx.2))]
        subst hs
        exact h.hmape (0 + 1) j (by omega)
    · rw [if_neg hs] at hj'
      rw [if_neg (by tauto), if_neg (by tauto)]
      exact h.hmape s j hj'
  · show upd1 a.shellN_encounter (0 + 1) (a.shellN_encounter (0 + 1) + 1) 0 = nE
    simp only [upd1]
    rw [if_neg (by omega)]
    exact h.hnE

theorem domdomInner_predInv {nD nS nE : ℕ} (dt : ℝ) (mi j : ℕ) {a b : SimState}
    (h : PredInv nD nS nE a b) (hj : j < nD) :
    PredInv nD nS nE (domdomInner dt 0 mi a j) (domdomInner dt 0 mi b j) := by
  have hja : j < a.shellN_dominant 0 := by rw [h.hnD]; exact hj
  have hmj : a.map_dominant 0 j = b.map_dominant 0 j := h.hmapd 0 j hja
  unfold domdomInner
  simp only []
  rw [← h.hpart, ← h.hdcrit, ← h.hcoll, ← hmj, ← h.hinsd]
  by_cases hc1 : reb_mercurana_predict_rmin2 (a.particles mi) (a.particles (a.map_dominant 0 j)) dt <
        ((a.particles mi).r + (a.particles (a.map_dominant 0 j)).r) *
          ((a.particles mi).r + (a.particles (a.map_dominant 0 j)).r) ∧
      a.collision = CollMode.collDirect
  · simp only [if_pos hc1]
    by_cases hc2 : reb_mercurana_predict_rmin2 (a.particles mi) (a.particles (a.map_dominant 0 j)) dt <
        (a.dcrit 0 mi + a.dcrit 0 (a.map_dominant 0 j)) *
          (a.dcrit 0 mi + a.dcrit 0 (a.map_dominant 0 j))
    · simp only [if_pos hc2]
      by_cases hg1 : a.inshell_dominant mi = 0
      · simp only [if_pos hg1]
        simp only [promoteDominant_inshell_dominant, record_collision_inshell_dominant]
        simp only [← h.hinsd]
        by_cases hg2 : upd1 a.inshell_dominant mi (0 + 1) (a.map_dominant 0 j) = 0
        · simp only [if_pos hg2]
          exact promoteDominant_predInv (promoteDominant_predInv (record_collision_predInv h mi _) mi) _
        · simp only [if_neg hg2]
          exact promoteDominant_predInv (record_collision_predInv h mi _) mi
      · simp only [if_neg hg1]
        simp only [record_collision_inshell_dominant]
        simp only [← h.hinsd]
        by_cases hg2 : a.inshell_dominant (a.map_dominant 0 j) = 0
        · simp only [if_pos hg2]
          exact promoteDominant_predInv (record_collision_predInv h mi _) _
        · simp only [if_neg hg2]
          exact record_collision_predInv h mi _
    · simp only [if_neg hc2]
      exact minMaxdriftDominant_predInv
        (minMaxdriftDominant_predInv (record_collision_predInv h mi _) mi _) _ _
  · simp only [if_neg hc1]
    by_cases hc2 : reb_mercurana_predict_rmin2 (a.particles mi) (a.particles (a.map_dominant 0 j)) dt <
        (a.dcrit 0 mi + a.dcrit 0 (a.map_dominant 0 j)) *
          (a.dcrit 0 mi + a.dcrit 0 (a.map_dominant 0 j))
    · simp only [if_pos hc2]
      by_cases hg1 : a.inshell_dominant mi = 0
      · simp only [if_pos hg1]
        simp only [promoteDominant_inshell_dominant]
        simp only [← h.hinsd]
        by_cases hg2 : upd1 a.inshell_dominant mi (0 + 1) (a.map_dominant 0 j) = 0
        · simp only [if_pos hg2]
          exact promoteDominant_predInv (promoteDominant_predInv h mi) _
        · simp only [if_neg hg2]
          exact promoteDominant_predInv h mi
      · simp only [if_neg hg1]
        simp only [← h.hinsd]
        by_cases hg2 : a.inshell_dominant (a.map_dominant 0 j) = 0
        · simp only [if_pos hg2]
          exact promoteDominant_predInv h _
        · simp only [if_neg hg2]
          exact h
    · simp only [if_neg hc2]
      exact minMaxdriftDominant_predInv (minMaxdriftDominant_predInv h mi _) _ _

theorem domsubInner_predInv {nD nS nE : ℕ} (dt : ℝ) (mi j : ℕ) {a b : SimState}
    (h : PredInv nD nS nE a b) (hj : j < nS) :
    PredInv nD nS nE (domsubInner dt 0 mi a j) (domsubInner dt 0 mi b j) := by
  have hja : j < a.shellN_subdominant 0 := by rw [h.hnS]; exact hj
  have hmj : a.map_subdominant 0 j = b.map_subdominant 0 j := h.hmaps 0 j hja
  unfold domsubInner
  simp only []
  rw [← h.hpart, ← h.hdcrit, ← h.hcoll, ← hmj, ← h.hinsd]
  by_cases hc1 : reb_mercurana_predict_rmin2 (a.particles mi) (a.particles (a.map_subdominant 0 j)) dt <
        ((a.particles mi).r + (a.particles (a.map_subdominant 0 j)).r) *
          ((a.particles mi).r + (a.particles (a.map_subdominant 0 j)).r) ∧
      a.collision = CollMode.collDirect
  · simp only [if_pos hc1]
    by_cases hc2 : reb_mercurana_predict_rmin2 (a.particles mi)
        (a.particles (a.map_subdominant 0 j)) dt <
        (a.dcrit 0 mi + a.dcrit 0 (a.map_subdominant 0 j)) *
          (a.dcrit 0 mi + a.dcrit 0 (a.map_subdominant 0 j))
    · simp only [if_pos hc2]
      by_cases hg1 : a.inshell_dominant mi = 0
      · simp only [if_pos hg1]
        simp only [promoteDominant_inshell_dominant, record_collision_inshell_dominant]
        simp only [← h.hinsd]
        by_cases hg2 : upd1 a.inshell_dominant mi (0 + 1) (a.map_subdominant 0 j) = 0
        · simp only [if_pos hg2]
          exact promoteSubdominant_predInv
            (promoteDominant_predInv (record_collision_predInv h mi _) mi) _
        · simp only [if_neg hg2]
          exact promoteDominant_predInv (record_collision_predInv h mi _) mi
      · simp only [if_neg hg1]
        simp only [record_collision_inshell_dominant]
        simp only [← h.hinsd]
        by_cases hg2 : a.inshell_dominant (a.map_subdominant 0 j) = 0
        · simp only [if_pos hg2]
          exact promoteSubdominant_predInv (record_collision_predInv h mi _) _
        · simp only [if_neg hg2]
          exact record_collision_predInv h mi _
    · simp only [if_neg hc2]
      exact minMaxdriftDominant_predInv
        (minMaxdriftDominant_predInv (record_collision_predInv h mi _) mi _) _ _
  · simp only [if_neg hc1]
    by_cases hc2 : reb_mercurana_predict_rmin2 (a.particles mi)
        (a.particles (a.map_subdominant 0 j)) dt <
        (a.dcrit 0 mi + a.dcrit 0 (a.map_subdominant 0 j)) *
          (a.dcrit 0 mi + a.dcrit 0 (a.map_subdominant 0 j))
    · simp only [if_pos hc2]
      by_cases hg1 : a.inshell_dominant mi = 0
      · simp only [if_pos hg1]
        simp only [promoteDominant_inshell_dominant]
        simp only [← h.hinsd]
        by_cases hg2 : upd1 a.inshell_dominant mi (0 + 1) (a.map_subdominant 0 j) = 0
        · simp only [if_pos hg2]
          exact promoteSubdominant_predInv (promoteDominant_predInv h mi) _
        · simp only [if_neg hg2]
          exact promoteDominant_predInv h mi
      · simp only [if_neg hg1]
        simp only [← h.hinsd]
        by_cases hg2 : a.inshell_dominant (a.map_subdominant 0 j) = 0
        · simp only [if_pos hg2]
          exact promoteSubdominant_predInv h _
        · simp only [if_neg hg2]
          exact h
    · simp only [if_neg hc2]
      exact minMaxdriftDominant_predInv (minMaxdriftDominant_predInv h mi _) _ _

theorem encencInner_predInv {nD nS nE : ℕ} (dt : ℝ) (mi j : ℕ) {a b : SimState}
    (h : PredInv nD nS nE a b) (hj : j < nE) :
    PredInv nD nS nE (encencInner dt 0 mi a j) (encencInner dt 0 mi b j) := by
  have hja : j < a.shellN_encounter 0 := by rw [h.hnE]; exact hj
  have hmj : a.map_encounter 0 j = b.map_encounter 0 j := h.hmape 0 j hja
  unfold encencInner
  simp only []
  rw [← h.hpart, ← h.hdcrit, ← h.hcoll, ← hmj, ← h.hinse]
  by_cases hc1 : reb_mercurana_predict_rmin2 (a.particles mi) (a.particles (a.map_encounter 0 j)) dt <
        ((a.particles mi).r + (a.particles (a.map_encounter 0 j)).r) *
          ((a.particles mi).r + (a.particles (a.map_encounter 0 j)).r) ∧
      a.collision = CollMode.collDirect
  · simp only [if_pos hc1]
    by_cases hc2 : reb_mercurana_predict_rmin2 (a.particles mi)
        (a.particles (a.map_encounter 0 j)) dt <
        (a.dcrit 0 mi + a.dcrit 0 (a.map_encounter 0 j)) *
          (a.dcrit 0 mi + a.dcrit 0 (a.map_encounter 0 j))
    · simp only [if_pos hc2]
      by_cases hg1 : a.inshell_encounter mi = 0
      · simp only [if_pos hg1]
        simp only [promoteEncounter_inshell_encounter, record_collision_inshell_encounter]
        simp only [← h.hinse]
        by_cases hg2 : upd1 a.inshell_encounter mi (0 + 1) (a.map_encounter 0 j) = 0
        · simp only [if_pos hg2]
          exact promoteEncounter_predInv
            (promoteEncounter_predInv (record_collision_predInv h mi _) mi) _
        · simp only [if_neg hg2]
          exact promoteEncounter_predInv (record_collision_predInv h mi _) mi
      · simp only [if_neg hg1]
        simp only [record_collision_inshell_encounter]
        simp only [← h.hinse]
        by_cases hg2 : a.inshell_encounter (a.map_encounter 0 j) = 0
        · simp only [if_pos hg2]
          exact promoteEncounter_predInv (record_collision_predInv h mi _) _
        · simp only [if_neg hg2]
          exact record_collision_predInv h mi _
    · simp only [if_neg hc2]
      exact minMaxdriftEncounter_predInv
        (minMaxdriftEncounter_predInv (record_collision_predInv h mi _) mi _) _ _
  · simp only [if_neg hc1]
    by_cases hc2 : reb_mercurana_predict_rmin2 (a.particles mi)
        (a.particles (a.map_encounter 0 j)) dt <
        (a.dcrit 0 mi + a.dcrit 0 (a.map_encounter 0 j)) *
          (a.dcrit 0 mi + a.dcrit 0 (a.map_encounter 0 j))
    · simp only [if_pos hc2]
      by_cases hg1 : a.inshell_encounter mi = 0
      · simp only [if_pos hg1]
        simp only [promoteEncounter_inshell_encounter]
        simp only [← h.hinse]
        by_cases hg2 : upd1 a.inshell_encounter mi (0 + 1) (a.map_encounter 0 j) = 0
        · simp only [if_pos hg2]
          exact promoteEncounter_predInv (promoteEncounter_predInv h mi) _
        · simp only [if_neg hg2]
          exact promoteEncounter_predInv h mi
      · simp only [if_neg hg1]
        simp only [← h.hinse]
        by_cases hg2 : a.inshell_encounter (a.map_encounter 0 j) = 0
        · simp only [if_pos hg2]
          exact promoteEncounter_predInv h _
        · simp only [if_neg hg2]
          exact h
    · simp only [if_neg hc2]
      exact minMaxdriftEncounter_predInv (minMaxdriftEncounter_predInv h mi _) _ _

theorem domdomOuter_predInv {nD nS nE : ℕ} (dt : ℝ) (i : ℕ) {a b : SimState}
    (h : PredInv nD nS nE a b) (hi : i < nD) :
    PredInv nD nS nE (domdomOuter dt 0 nD a i) (domdomOuter dt 0 nD b i) := by
  unfold domdomOuter
  have hmi : a.map_dominant 0 i = b.map_dominant 0 i := h.hmapd 0 i (by rw [h.hnD]; exact hi)
  rw [← hmi]
  exact foldl_rel _ _ _
    (fun x hx c d hcd => domdomInner_predInv dt _ x hcd
      (by have := (List.mem_range'_1).mp hx; omega)) a b h

theorem domdomPass_predInv {nD nS nE : ℕ} (dt : ℝ) {a b : SimState}
    (h : PredInv nD nS nE a b) :
    PredInv nD nS nE (domdomPass dt 0 nD a) (domdomPass dt 0 nD b) := by
  unfold domdomPass
  exact foldl_rel _ _ _
    (fun i hi c d hcd => domdomOuter_predInv dt i hcd (List.mem_range.mp hi)) a b h

theorem domsubOuter_predInv {nD nS nE : ℕ} (dt : ℝ) (i : ℕ) {a b : SimState}
    (h : PredInv nD nS nE a b) (hi : i < nD) :
    PredInv nD nS nE (domsubOuter dt 0 nS a i) (domsubOuter dt 0 nS b i) := by
  unfold domsubOuter
  have hmi : a.map_dominant 0 i = b.map_dominant 0 i := h.hmapd 0 i (by rw [h.hnD]; exact hi)
  rw [← hmi]
  exact foldl_rel _ _ _
    (fun x hx c d hcd => domsubInner_predInv dt _ x hcd (List.mem_range.mp hx)) a b h

theorem domsubPass_predInv {nD nS nE : ℕ} (dt : ℝ) {a b : SimState}
    (h : PredInv nD nS nE a b) :
    PredInv nD nS nE (domsubPass dt 0 nD nS a) (domsubPass dt 0 nD nS b) := by
  unfold domsubPass
  exact foldl_rel _ _ _
    (fun i hi c d hcd => domsubOuter_predInv dt i hcd (List.mem_range.mp hi)) a b h

theorem encencOuter_predInv {nD nS nE : ℕ} (dt : ℝ) (i : ℕ) {a b : SimState}
    (h : PredInv nD nS nE a b) (hi : i < nE) :
    PredInv nD nS nE (encencOuter dt 0 nE a i) (encencOuter dt 0 nE b i) := by
  unfold encencOuter
  have hmi : a.map_encounter 0 i = b.map_encounter 0 i := h.hmape 0 i (by rw [h.hnE]; exact hi)
  rw [← hmi]
  exact foldl_rel _ _ _
    (fun x hx c d hcd => encencInner_predInv dt _ x hcd
      (by have := (List.mem_range'_1).mp hx; omega)) a b h

theorem encencPass_predInv {nD nS nE : ℕ} (dt : ℝ) {a b : SimState}
    (h : PredInv nD nS nE a b) :
    PredInv nD nS nE (encencPass dt 0 nE a) (encencPass dt 0 nE b) := by
  unfold encencPass
  exact foldl_rel _ _ _
    (fun i hi c d hcd => encencOuter_predInv dt i hcd (List.mem_range.mp hi)) a b h

/-- Two `PredInv`-related states have identical shell memberships. -/
theorem predInv_mapsEq {nD nS nE : ℕ} {a b : SimState} (h : PredInv nD nS nE a b) :
    mapsEq a b := by
  refine ⟨fun s => congrFun h.hsd s, fun s => congrFun h.hss s, fun s => congrFun h.hse s,
    ?_, ?_, ?_⟩
  · intro s
    unfold mapListDominant
    rw [← congrFun h.hsd s]
    exact List.map_congr_left (fun x hx => h.hmapd s x (List.mem_range.mp hx))
  · intro s
    unfold mapListSubdominant
    rw [← congrFun h.hss s]
    exact List.map_congr_left (fun x hx => h.hmaps s x (List.mem_range.mp hx))
  · intro s
    unfold mapListEncounter
    rw [← congrFun h.hse s]
    exact List.map_congr_left (fun x hx => h.hmape s x (List.mem_range.mp hx))

theorem mapsEq_refl (x : SimState) : mapsEq x x :=
  ⟨fun _ => rfl, fun _ => rfl, fun _ => rfl, fun _ => rfl, fun _ => rfl, fun _ => rfl⟩

theorem record_pass0Inv {st x : SimState} {nD nS nE : ℕ}
    (h : Pass0Inv st nD nS nE x) (i j : ℕ) :
    Pass0Inv st nD nS nE (reb_mercurana_record_collision x i j) :=
  ⟨⟨h.frame.hN, h.frame.hNdom, h.frame.hNmax, h.frame.hcoll, h.frame.hpart, h.frame.hdcrit,
    h.frame.hinsdHi, h.frame.hinseHi, h.frame.hmddHi, h.frame.hmdeHi, h.frame.hsdHi,
    h.frame.hssHi, h.frame.hseHi, h.frame.hmapdHi, h.frame.hmapsHi, h.frame.hmapeHi⟩,
   h.hnD, h.hnS, h.hnE, h.bd, h.bs, h.be⟩

theorem promoteDominant_pass0Inv {st x : SimState} {nD nS nE : ℕ}
    (h : Pass0Inv st nD nS nE x) (m : ℕ) (hm : m < st.N) :
    Pass0Inv st nD nS nE (promoteDominant x 0 m) := by
  refine ⟨⟨h.frame.hN, h.frame.hNdom, h.frame.hNmax, h.frame.hcoll, h.frame.hpart,
    h.frame.hdcrit, ?_, h.frame.hinseHi, h.frame.hmddHi, h.frame.hmdeHi, ?_,
    h.frame.hssHi, h.frame.hseHi, ?_, h.frame.hmapsHi, h.frame.hmapeHi⟩,
    ?_, h.hnS, h.hnE, ?_, h.bs, h.be⟩
  · intro i hi
    show upd1 x.inshell_dominant m (0 + 1) i = _
    simp only [upd1]
    rw [if_neg (by omega)]
    exact h.frame.hinsdHi i hi
  · intro s hs
    show upd1 x.shellN_dominant (0 + 1) (x.shellN_dominant (0 + 1) + 1) s = _
    simp only [upd1]
    rw [if_neg (by omega)]
    exact h.frame.hsdHi s hs
  · intro s hs j
    show upd2 x.map_dominant (0 + 1) (x.shellN_dominant (0 + 1)) m s j = _
    simp only [upd2]
    rw [if_neg (by rintro ⟨rfl, -⟩; omega)]
    exact h.frame.hmapdHi s hs j
  · show upd1 x.shellN_dominant (0 + 1) (x.shellN_dominant (0 + 1) + 1) 0 = nD
    simp only [upd1]
    rw [if_neg (by omega)]
    exact h.hnD
  · intro j hj
    show upd2 x.map_dominant (0 + 1) (x.shellN_dominant (0 + 1)) m 0 j < st.N
    simp only [upd2]
    rw [if_neg (by rintro ⟨h0, -⟩; omega)]
    exact h.bd j hj

theorem promoteSubdominant_pass0Inv {st x : SimState} {nD nS nE : ℕ}
    (h : Pass0Inv st nD nS nE x) (m : ℕ) (hm : m < st.N) :
    Pass0Inv st nD nS nE (promoteSubdominant x 0 m) := by
  refine ⟨⟨h.frame.hN, h.frame.hNdom, h.frame.hNmax, h.frame.hcoll, h.frame.hpart,
    h.frame.hdcrit, ?_, h.frame.hinseHi, h.frame.hmddHi, h.frame.hmdeHi, h.frame.hsdHi,
    ?_, h.frame.hseHi, h.frame.hmapdHi, ?_, h.frame.hmapeHi⟩,
    h.hnD, ?_, h.hnE, h.bd, ?_, h.be⟩
  · intro i hi
    show upd1 x.inshell_dominant m (0 + 1) i = _
    simp only [upd1]
    rw [if_neg (by omega)]
    exact h.frame.hinsdHi i hi
  · intro s hs
    show upd1 x.shellN_subdominant (0 + 1) (x.shellN_subdominant (0 + 1) + 1) s = _
    simp only [upd1]
    rw [if_neg (by omega)]
    exact h.frame.hssHi s hs
  · intro s hs j
    show upd2 x.map_subdominant (0 + 1) (x.shellN_subdominant (0 + 1)) m s j = _
    simp only [upd2]
    rw [if_neg (by rintro ⟨rfl, -⟩; omega)]
    exact h.frame.hmapsHi s hs j
  · show upd1 x.shellN_subdominant (0 + 1) (x.shellN_subdominant (0 + 1) + 1) 0 = nS
    simp only [upd1]
    rw [if_neg (by omega)]
    exact h.hnS
  · intro j hj
    show upd2 x.map_subdominant (0 + 1) (x.shellN_subdominant (0 + 1)) m 0 j < st.N
    simp only [upd2]
    rw [if_neg (by rintro ⟨h0, -⟩; omega)]
    exact h.bs j hj

theorem promoteEncounter_pass0Inv {st x : SimState} {nD nS nE : ℕ}
    (h : Pass0Inv st nD nS nE x) (m : ℕ) (hm : m < st.N) :
    Pass0Inv st nD nS nE (promoteEncounter x 0 m) := by
  refine ⟨⟨h.frame.hN, h.frame.hNdom, h.frame.hNmax, h.frame.hcoll, h.frame.hpart,
    h.frame.hdcrit, h.frame.hinsdHi, ?_, h.frame.hmddHi, h.frame.hmdeHi, h.frame.hsdHi,
    h.frame.hssHi, ?_, h.frame.hmapdHi, h.frame.hmapsHi, ?_⟩,
    h.hnD, h.hnS, ?_, h.bd, h.bs, ?_⟩
  · intro i hi
    show upd1 x.inshell_encounter m (0 + 1) i = _
    simp only [upd1]
    rw [if_neg (by omega)]
    exact h.frame.hinseHi i hi
  · intro s hs
    show upd1 x.shellN_encounter (0 + 1) (x.shellN_encounter (0 + 1) + 1) s = _
    simp only [upd1]
    rw [if_neg (by omega)]
    exact h.frame.hseHi s hs
  · intro s hs j
    show upd2 x.map_encounter (0 + 1) (x.shellN_encounter (0 + 1)) m s j = _
    simp only [upd2]
    rw [if_neg (by rintro ⟨rfl, -⟩; omega)]
    exact h.frame.hmapeHi s hs j
  · show upd1 x.shellN_encounter (0 + 1) (x.shellN_encounter (0 + 1) + 1) 0 = nE
    simp only [upd1]
    rw [if_neg (by omega)]
    exact h.hnE
  · intro j hj
    show upd2 x.map_encounter (0 + 1) (x.shellN_encounter (0 + 1)) m 0 j < st.N
    simp only [upd2]
    rw [if_neg (by rintro ⟨h0, -⟩; omega)]
    exact h.be j hj

theorem minMaxdriftDominant_pass0Inv {st x : SimState} {nD nS nE : ℕ}
    (h : Pass0Inv st nD nS nE x) (k : ℕ) (md : ℝ) (hk : k < st.N) :
    Pass0Inv st nD nS nE (minMaxdriftDominant x k md) := by
  refine ⟨⟨h.frame.hN, h.frame.hNdom, h.frame.hNmax, h.frame.hcoll, h.frame.hpart,
    h.frame.hdcrit, h.frame.hinsdHi, h.frame.hinseHi, ?_, h.frame.hmdeHi, h.frame.hsdHi,
    h.frame.hssHi, h.frame.hseHi, h.frame.hmapdHi, h.frame.hmapsHi, h.frame.hmapeHi⟩,
    h.hnD, h.hnS, h.hnE, h.bd, h.bs, h.be⟩
  intro i hi
  show upd1 x.maxdrift_dominant k (min (x.maxdrift_dominant k) md) i = _
  simp only [upd1]
  rw [if_neg (by omega)]
  exact h.frame.hmddHi i hi

theorem minMaxdriftEncounter_pass0Inv {st x : SimState} {nD nS nE : ℕ}
    (h : Pass0Inv st nD nS nE x) (k : ℕ) (md : ℝ) (hk : k < st.N) :
    Pass0Inv st nD nS nE (minMaxdriftEncounter x k md) := by
  refine ⟨⟨h.frame.hN, h.frame.hNdom, h.frame.hNmax, h.frame.hcoll, h.frame.hpart,
    h.frame.hdcrit, h.frame.hinsdHi, h.frame.hinseHi, h.frame.hmddHi, ?_, h.frame.hsdHi,
    h.frame.hssHi, h.frame.hseHi, h.frame.hmapdHi, h.frame.hmapsHi, h.frame.hmapeHi⟩,
    h.hnD, h.hnS, h.hnE, h.bd, h.bs, h.be⟩
  intro i hi
  show upd1 x.maxdrift_encounter k (min (x.maxdrift_encounter k) md) i = _
  simp only [upd1]
  rw [if_neg (by omega)]
  exact h.frame.hmdeHi i hi

theorem domdomInner_pass0Inv {st x : SimState} {nD nS nE : ℕ} (dt : ℝ) (mi j : ℕ)
    (hm : mi < st.N) (h : Pass0Inv st nD nS nE x) (hj : j < nD) :
    Pass0Inv st nD nS nE (domdomInner dt 0 mi x j) := by
  have hmjN : x.map_dominant 0 j < st.N := h.bd j hj
  unfold domdomInner
  simp only []
  split_ifs <;>
    (repeat first
      | exact h
      | exact hm
      | exact hmjN
      | apply promoteDominant_pass0Inv
      | apply record_pass0Inv
      | apply minMaxdriftDominant_pass0Inv)

theorem domsubInner_pass0Inv {st x : SimState} {nD nS nE : ℕ} (dt : ℝ) (mi j : ℕ)
    (hm : mi < st.N) (h : Pass0Inv st nD nS nE x) (hj : j < nS) :
    Pass0Inv st nD nS nE (domsubInner dt 0 mi x j) := by
  have hmjN : x.map_subdominant 0 j < st.N := h.bs j hj
  unfold domsubInner
  simp only []
  split_ifs <;>
    (repeat first
      | exact h
      | exact hm
      | exact hmjN
      | apply promoteSubdominant_pass0Inv
      | apply promoteDominant_pass0Inv
      | apply record_pass0Inv
      | apply minMaxdriftDominant_pass0Inv)

theorem encencInner_pass0Inv {st x : SimState} {nD nS nE : ℕ} (dt : ℝ) (mi j : ℕ)
    (hm : mi < st.N) (h : Pass0Inv st nD nS nE x) (hj : j < nE) :
    Pass0Inv st nD nS nE (encencInner dt 0 mi x j) := by
  have hmjN : x.map_encounter 0 j < st.N := h.be j hj
  unfold encencInner
  simp only []
  split_ifs <;>
    (repeat first
      | exact h
      | exact hm
      | exact hmjN
      | apply promoteEncounter_pass0Inv
      | apply record_pass0Inv
      | apply minMaxdriftEncounter_pass0Inv)

theorem domdomOuter_pass0Inv {st x : SimState} {nD nS nE : ℕ} (dt : ℝ) (i : ℕ)
    (h : Pass0Inv st nD nS nE x) (hi : i < nD) :
    Pass0Inv st nD nS nE (domdomOuter dt 0 nD x i) := by
  unfold domdomOuter
  exact foldl_pres _ _ _
    (fun y hy z hz => domdomInner_pass0Inv dt _ y (h.bd i hi) hz
      (by have := (List.mem_range'_1).mp hy; omega)) x h

theorem domdomPass_pass0Inv {st x : SimState} {nD nS nE : ℕ} (dt : ℝ)
    (h : Pass0Inv st nD nS nE x) :
    Pass0Inv st nD nS nE (domdomPass dt 0 nD x) := by
  unfold domdomPass
  exact foldl_pres _ _ _
    (fun i hi z hz => domdomOuter_pass0Inv dt i hz (List.mem_range.mp hi)) x h

theorem domsubOuter_pass0Inv {st x : SimState} {nD nS nE : ℕ} (dt : ℝ) (i : ℕ)
    (h : Pass0Inv st nD nS nE x) (hi : i < nD) :
    Pass0Inv st nD nS nE (domsubOuter dt 0 nS x i) := by
  unfold domsubOuter
  exact foldl_pres _ _ _
    (fun y hy z hz => domsubInner_pass0Inv dt _ y (h.bd i hi) hz (List.mem_range.mp hy)) x h

theorem domsubPass_pass0Inv {st x : SimState} {nD nS nE : ℕ} (dt : ℝ)
    (h : Pass0Inv st nD nS nE x) :
    Pass0Inv st nD nS nE (domsubPass dt 0 nD nS x) := by
  unfold domsubPass
  exact foldl_pres _ _ _
    (fun i hi z hz => domsubOuter_pass0Inv dt i hz (List.mem_range.mp hi)) x h

theorem encencOuter_pass0Inv {st x : SimState} {nD nS nE : ℕ} (dt : ℝ) (i : ℕ)
    (h : Pass0Inv st nD nS nE x) (hi : i < nE) :
    Pass0Inv st nD nS nE (encencOuter dt 0 nE x i) := by
  unfold encencOuter
  exact foldl_pres _ _ _
    (fun y hy z hz => encencInner_pass0Inv dt _ y (h.be i hi) hz
      (by have := (List.mem_range'_1).mp hy; omega)) x h

theorem encencPass_pass0Inv {st x : SimState} {nD nS nE : ℕ} (dt : ℝ)
    (h : Pass0Inv st nD nS nE x) :
    Pass0Inv st nD nS nE (encencPass dt 0 nE x) := by
  unfold encencPass
  exact foldl_pres _ _ _
    (fun i hi z hz => encencOuter_pass0Inv dt i hz (List.mem_range.mp hi)) x h

theorem bootstrap_pass0Inv (st : SimState) (hnd : st.N_dominant ≤ st.N) :
    Pass0Inv st st.N_dominant (st.N - st.N_dominant) (st.N - st.N_dominant)
      (bootstrapShell0 (predictReset st 0)) := by
  refine ⟨⟨rfl, rfl, rfl, rfl, rfl, rfl, ?_, ?_, ?_, ?_, ?_, ?_, ?_, ?_, ?_, ?_⟩,
    ?_, ?_, ?_, ?_, ?_, ?_⟩
  · intro i hi
    simp only [bootstrapShell0, predictReset]
    rw [if_neg (by omega)]
  · intro i hi
    simp only [bootstrapShell0, predictReset]
    rw [if_neg (by omega)]
  · intro i hi
    simp only [bootstrapShell0, predictReset]
    rw [if_neg (by omega)]
  · intro i hi
    simp only [bootstrapShell0, predictReset]
    rw [if_neg (by omega)]
  · intro s hs
    simp only [bootstrapShell0, predictReset, upd1]
    rw [if_neg (by omega), if_neg (by omega)]
  · intro s hs
    simp only [bootstrapShell0, predictReset, upd1]
    rw [if_neg (by omega), if_neg (by omega)]
  · intro s hs
    simp only [bootstrapShell0, predictReset, upd1]
    rw [if_neg (by omega), if_neg (by omega)]
  · intro s hs j
    simp only [bootstrapShell0, predictReset]
    rw [if_neg (by omega)]
  · intro s hs j
    simp only [bootstrapShell0, predictReset]
    rw [if_neg (by omega)]
  · intro s hs j
    simp only [bootstrapShell0, predictReset]
    rw [if_neg (by omega)]
  · simp only [bootstrapShell0, predictReset, upd1]
    rw [if_pos trivial]
  · simp only [bootstrapShell0, predictReset, upd1]
    rw [if_pos trivial]
  · simp only [bootstrapShell0, predictReset, upd1]
    rw [if_pos trivial]
  · intro j hj
    simp only [bootstrapShell0, predictReset]
    rw [if_pos ⟨trivial, hj⟩]
    omega
  · intro j hj
    simp only [bootstrapShell0, predictReset]
    rw [if_pos ⟨trivial, hj⟩]
    omega
  · intro j hj
    simp only [bootstrapShell0, predictReset]
    rw [if_pos ⟨trivial, hj⟩]
    omega

theorem body0_decompose (st : SimState) (dt : ℝ) :
    encounterPredictBody st dt 0 =
      encencPass dt 0 (st.N - st.N_dominant)
        (domsubPass dt 0 st.N_dominant (st.N - st.N_dominant)
          (domdomPass dt 0 st.N_dominant (bootstrapShell0 (predictReset st 0)))) := rfl

theorem body0_pass0Inv (st : SimState) (dt : ℝ) (hnd : st.N_dominant ≤ st.N) :
    Pass0Inv st st.N_dominant (st.N - st.N_dominant) (st.N - st.N_dominant)
      (encounterPredictBody st dt 0) := by
  rw [body0_decompose]
  exact encencPass_pass0Inv dt
    (domsubPass_pass0Inv dt (domdomPass_pass0Inv dt (bootstrap_pass0Inv st hnd)))

theorem bodyFrame_clear {st x : SimState} (h : BodyFrame st x) :
    BodyFrame st { x with collisions := [] } :=
  ⟨h.hN, h.hNdom, h.hNmax, h.hcoll, h.hpart, h.hdcrit, h.hinsdHi, h.hinseHi, h.hmddHi,
   h.hmdeHi, h.hsdHi, h.hssHi, h.hseHi, h.hmapdHi, h.hmapsHi, h.hmapeHi⟩

theorem predict_succ_zero (k : ℕ) (st : SimState) (dt : ℝ)
    (h : ¬ (0 + 1 ≥ st.Nmaxshells)) :
    reb_mercurana_encounter_predict (k + 1) id st dt 0 =
      if (encounterPredictBody st dt 0).collisions = [] then encounterPredictBody st dt 0
      else { encounterPredictBody st dt 0 with collisions := [] } := by
  simp only [reb_mercurana_encounter_predict]
  rw [if_neg h]
  simp only [id_eq]
  by_cases hc : (encounterPredictBody st dt 0).collisions = []
  · rw [if_pos hc, if_pos hc]
  · rw [if_neg hc, if_neg hc, if_neg (not_not_intro rfl)]

theorem predict_zero_frame (k : ℕ) (st : SimState) (dt : ℝ)
    (hnd : st.N_dominant ≤ st.N) (h : ¬ (0 + 1 ≥ st.Nmaxshells)) :
    BodyFrame st (reb_mercurana_encounter_predict (k + 1) id st dt 0) := by
  rw [predict_succ_zero k st dt h]
  by_cases hc : (encounterPredictBody st dt 0).collisions = []
  · rw [if_pos hc]
    exact (body0_pass0Inv st dt hnd).frame
  · rw [if_neg hc]
    exact bodyFrame_clear (body0_pass0Inv st dt hnd).frame

theorem setup_predInv {st r1 : SimState} (hf : BodyFrame st r1) :
    PredInv st.N_dominant (st.N - st.N_dominant) (st.N - st.N_dominant)
      (bootstrapShell0 (predictReset r1 0)) (bootstrapShell0 (predictReset st 0)) := by
  refine ⟨?_, ?_, ?_, ?_, ?_, ?_, ?_, ?_, ?_, ?_, ?_, ?_, ?_, ?_, ?_, ?_, ?_⟩
  · exact hf.hN
  · exact hf.hpart
  · exact hf.hdcrit
  · exact hf.hcoll
  · funext i
    simp only [bootstrapShell0, predictReset]
    rw [hf.hN]
    by_cases hi : i < st.N
    · rw [if_pos hi, if_pos hi]
    · rw [if_neg hi, if_neg hi]
      exact hf.hinsdHi i (Nat.le_of_not_lt hi)
  · funext i
    simp only [bootstrapShell0, predictReset]
    rw [hf.hN]
    by_cases hi : i < st.N
    · rw [if_pos hi, if_pos hi]
    · rw [if_neg hi, if_neg hi]
      exact hf.hinseHi i (Nat.le_of_not_lt hi)
  · funext i
    simp only [bootstrapShell0, predictReset]
    rw [hf.hN]
    by_cases hi : i < st.N
    · rw [if_pos hi, if_pos hi]
    · rw [if_neg hi, if_neg hi]
      exact hf.hmddHi i (Nat.le_of_not_lt hi)
  · funext i
    simp only [bootstrapShell0, predictReset]
    rw [hf.hN]
    by_cases hi : i < st.N
    · rw [if_pos hi, if_pos hi]
    · rw [if_neg hi, if_neg hi]
      exact hf.hmdeHi i (Nat.le_of_not_lt hi)
  · funext s
    simp only [bootstrapShell0, predictReset, upd1]
    by_cases h0 : s = 0
    · rw [if_pos h0, if_pos h0]
      exact hf.hNdom
    · rw [if_neg h0, if_neg h0]
      by_cases h1 : s = 0 + 1
      · rw [if_pos h1, if_pos h1]
      · rw [if_neg h1, if_neg h1]
        exact hf.hsdHi s (by omega)
  · funext s
    simp only [bootstrapShell0, predictReset, upd1]
    by_cases h0 : s = 0
    · rw [if_pos h0, if_pos h0, hf.hN, hf.hNdom]
    · rw [if_neg h0, if_neg h0]
      by_cases h1 : s = 0 + 1
      · rw [if_pos h1, if_pos h1]
      · rw [if_neg h1, if_neg h1]
        exact hf.hssHi s (by omega)
  · funext s
    simp only [bootstrapShell0, predictReset, upd1]
    by_cases h0 : s = 0
    · rw [if_pos h0, if_pos h0, hf.hN, hf.hNdom]
    · rw [if_neg h0, if_neg h0]
      by_cases h1 : s = 0 + 1
      · rw [if_pos h1, if_pos h1]
      · rw [if_neg h1, if_neg h1]
        exact hf.hseHi s (by omega)
  · intro s j hj
    simp only [bootstrapShell0, predictReset, upd1] at hj ⊢
    by_cases h0 : s = 0
    · subst h0
      rw [if_pos rfl] at hj
      have hj' : j < st.N_dominant := hf.hNdom ▸ hj
      rw [if_pos ⟨rfl, hj⟩, if_pos ⟨rfl, hj'⟩]
    · rw [if_neg h0] at hj
      by_cases h1 : s = 0 + 1
      · rw [if_pos h1] at hj
        exact absurd hj (by omega)
      · rw [if_neg h1] at hj
        rw [if_neg (fun hc => h0 hc.1), if_neg (fun hc => h0 hc.1)]
        exact hf.hmapdHi s (by omega) j
  · intro s j hj
    simp only [bootstrapShell0, predictReset, upd1] at hj ⊢
    by_cases h0 : s = 0
    · subst h0
      rw [if_pos rfl] at hj
      have hj' : j < st.N - st.N_dominant := by
        rw [← hf.hN, ← hf.hNdom]
        exact hj
      rw [if_pos ⟨rfl, hj⟩, if_pos ⟨rfl, hj'⟩, hf.hNdom]
    · rw [if_neg h0] at hj
      by_cases h1 : s = 0 + 1
      · rw [if_pos h1] at hj
        exact absurd hj (by omega)
      · rw [if_neg h1] at hj
        rw [if_neg (fun hc => h0 hc.1), if_neg (fun hc => h0 hc.1)]
        exact hf.hmapsHi s (by omega) j
  · intro s j hj
    simp only [bootstrapShell0, predictReset, upd1] at hj ⊢
    by_cases h0 : s = 0
    · subst h0
      rw [if_pos rfl] at hj
      have hj' : j < st.N - st.N_dominant := by
        rw [← hf.hN, ← hf.hNdom]
        exact hj
      rw [if_pos ⟨rfl, hj⟩, if_pos ⟨rfl, hj'⟩, hf.hNdom]
    · rw [if_neg h0] at hj
      by_cases h1 : s = 0 + 1
      · rw [if_pos h1] at hj
        exact absurd hj (by omega)
      · rw [if_neg h1] at hj
        rw [if_neg (fun hc => h0 hc.1), if_neg (fun hc => h0 hc.1)]
        exact hf.hmapeHi s (by omega) j
  · simp only [bootstrapShell0, predictReset, upd1]
    rw [if_pos trivial]
    exact hf.hNdom
  · simp only [bootstrapShell0, predictReset, upd1]
    rw [if_pos trivial, hf.hN, hf.hNdom]
  · simp only [bootstrapShell0, predictReset, upd1]
    rw [if_pos trivial, hf.hN, hf.hNdom]

/-- C1: calling the predictor twice in a row at shell 0 with no intervening
mutation reproduces the shell memberships: the second call's maps and counts
equal the first call's.  (`id` stands in for the external collision resolver;
the hypothesis is the structural bound `N_dominant ≤ N` that `part1`
guarantees for any state reaching the predictor.) -/
theorem predict_shell0_idempotent (k1 k2 : ℕ) (st : SimState) (dt : ℝ)
    (hnd : st.N_dominant ≤ st.N) :
    mapsEq
      (reb_mercurana_encounter_predict (k2 + 1) id
        (reb_mercurana_encounter_predict (k1 + 1) id st dt 0) dt 0)
      (reb_mercurana_encounter_predict (k1 + 1) id st dt 0) := by
  by_cases hmax : 0 + 1 ≥ st.Nmaxshells
  · have h1 : reb_mercurana_encounter_predict (k1 + 1) id st dt 0 = st := by
      simp only [reb_mercurana_encounter_predict]
      rw [if_pos hmax]
    rw [h1]
    have h2 : reb_mercurana_encounter_predict (k2 + 1) id st dt 0 = st := by
      simp only [reb_mercurana_encounter_predict]
      rw [if_pos hmax]
    rw [h2]
    exact mapsEq_refl st
  · set r1 := reb_mercurana_encounter_predict (k1 + 1) id st dt 0 with hr1
    have hf : BodyFrame st r1 := predict_zero_frame k1 st dt hnd hmax
    have hmax1 : ¬ (0 + 1 ≥ r1.Nmaxshells) := by
      rw [hf.hNmax]
      exact hmax
    have hbody : mapsEq (encounterPredictBody r1 dt 0) (encounterPredictBody st dt 0) := by
      rw [body0_decompose r1 dt, body0_decompose st dt, hf.hN, hf.hNdom]
      exact predInv_mapsEq
        (encencPass_predInv dt (domsubPass_predInv dt (domdomPass_predInv dt (setup_predInv hf))))
    have e2 := predict_succ_zero k2 r1 dt hmax1
    have e1 : r1 =
        if (encounterPredictBody st dt 0).collisions = [] then encounterPredictBody st dt 0
        else { encounterPredictBody st dt 0 with collisions := [] } := by
      rw [hr1]
      exact predict_succ_zero k1 st dt hmax
    rw [e2]
    conv_rhs => rw [e1]
    split_ifs <;> exact hbody

theorem predict_shell0_idempotent_witness :
    ({ baseState with N := 1, Nmaxshells := 2 } : SimState).N_dominant ≤
      ({ baseState with N := 1, Nmaxshells := 2 } : SimState).N ∧
    mapsEq
      (reb_mercurana_encounter_predict 1 id
        (reb_mercurana_encounter_predict 1 id
          { baseState with N := 1, Nmaxshells := 2 } 1 0) 1 0)
      (reb_mercurana_encounter_predict 1 id
        { baseState with N := 1, Nmaxshells := 2 } 1 0) :=
  ⟨by norm_num [baseState],
   predict_shell0_idempotent 0 0 { baseState with N := 1, Nmaxshells := 2 } 1
     (by norm_num [baseState])⟩

end Mercurana
